import Mathlib

/-
Verification development for the ARC_Cache repository (C++ header-only cache
library).  The C++ classes are shallowly embedded as Lean structures and pure
state-passing functions.  Conventions used throughout:

* `std::unordered_map<Key, T>` is modelled as an association list
  `List (K × T)` with distinct keys, via `lookupA` / `upsertA` / `eraseA`
  (find / operator[]-assignment / erase).
* Heap-allocated nodes (`std::shared_ptr` objects shared between a map and an
  intrusive list) are modelled by a node store `Nat → Node` indexed by node
  ids, so aliasing through shared pointers is preserved; maps and lists hold
  node ids.
* `LruCache`'s doubly linked list is modelled pointer-by-pointer (ids with
  `prev`/`next` fields), statement by statement, because its `insertNode`
  writes `dummyHead_->prev_` where a correct insertion would write
  `dummyTail_->prev_`, and the consequences of that line only show up at the
  pointer level.
* The lists inside the ARC parts and the LFU frequency buckets are standard,
  correctly implemented doubly linked lists (each node appears in exactly one
  chain); they are modelled by their contents in chain order (`List Nat` of
  node ids), with front insertion `::`, back insertion `++ [nid]`, unlink
  `filter`, and end access `getLast?`.
* C++ `int`/`size_t` counters that stay nonnegative in every behaviour the
  theorems below talk about are modelled as `Nat`; `LfuCache`'s running
  totals, which the source updates with subtraction and truncating division,
  are modelled as `Int` with `Int.tdiv` (C-style truncation).  `LruCache`'s
  `capacity_` keeps its `int` type (`Int`) because the source compares it
  against `0`.
* Default-constructed `Key()` / `Value()` are modelled by `default` from
  `Inhabited` (for `Key = std::string` this is exactly the empty string).
-/

set_option maxRecDepth 20000
set_option linter.unusedSectionVars false

namespace Cache

/-! ## Association-list primitives (unordered_map model) -/

def lookupA {K V : Type} [DecidableEq K] : List (K × V) → K → Option V
  | [], _ => none
  | (k0, v0) :: t, k => if k = k0 then some v0 else lookupA t k

def upsertA {K V : Type} [DecidableEq K] : List (K × V) → K → V → List (K × V)
  | [], k, v => [(k, v)]
  | (k0, v0) :: t, k, v => if k = k0 then (k, v) :: t else (k0, v0) :: upsertA t k v

def eraseA {K V : Type} [DecidableEq K] : List (K × V) → K → List (K × V)
  | [], _ => []
  | (k0, v0) :: t, k => if k = k0 then t else (k0, v0) :: eraseA t k

/-! ## LruCache (src/LruCache.h)

The node heap uses id `0` for the null pointer, id `1` for `dummyHead_`,
id `2` for `dummyTail_`; real nodes are allocated from id `3`. -/

/-- LruNode: key, value, access count (constructed at 1) and the two intrusive
list pointers, represented as node ids. -/
structure LruNode (K V : Type) where
  key : K
  value : V
  accessCount : Nat
  prev : Nat
  next : Nat

def nullId : Nat := 0
def headId : Nat := 1
def tailId : Nat := 2

/-- Pointer write: store node record `n` at id `i`. -/
def setN {K V : Type} (h : Nat → LruNode K V) (i : Nat) (n : LruNode K V) :
    Nat → LruNode K V :=
  fun j => if j = i then n else h j

def setNext {K V : Type} (h : Nat → LruNode K V) (i x : Nat) : Nat → LruNode K V :=
  setN h i { h i with next := x }

def setPrev {K V : Type} (h : Nat → LruNode K V) (i x : Nat) : Nat → LruNode K V :=
  setN h i { h i with prev := x }

/-- State of `Cache::LruCache` (trailing underscores of the C++ fields
dropped). `capacity` is the C++ `int capacity_`. -/
structure LruCache (K V : Type) where
  capacity : Int
  nodes : Nat → LruNode K V
  nextId : Nat
  nodeMap : List (K × Nat)

variable {K V : Type} [DecidableEq K] [Inhabited K] [Inhabited V]

/-- Constructor plus `initializeList()`: dummy head and tail are
`LruNode(Key(), Value())` (access count 1, null pointers), then
`dummyHead_->next_ = dummyTail_; dummyTail_->prev_ = dummyHead_`. -/
def LruCache.init (capacity : Int) : LruCache K V :=
  { capacity := capacity
    nodes := fun i =>
      if i = headId then
        { key := default, value := default, accessCount := 1, prev := nullId, next := tailId }
      else if i = tailId then
        { key := default, value := default, accessCount := 1, prev := headId, next := nullId }
      else
        { key := default, value := default, accessCount := 1, prev := nullId, next := nullId }
    nextId := 3
    nodeMap := [] }

/-- `removeNode(node)`: `node->prev_->next_ = node->next_;
node->next_->prev_ = node->prev_;` transcribed statement by statement
(the second statement re-reads the node's fields from the updated heap,
exactly as the C++ sequence point structure prescribes). -/
def LruCache.removeNode (s : LruCache K V) (nid : Nat) : LruCache K V :=
  let h1 := setNext s.nodes ((s.nodes nid).prev) ((s.nodes nid).next)
  let h2 := setPrev h1 ((h1 nid).next) ((h1 nid).prev)
  { s with nodes := h2 }

/-- `insertNode(node)` exactly as written in the source:
`node->next_ = dummyTail_; dummyTail_->prev_->next_ = node;
node->prev_ = dummyTail_->prev_; dummyHead_->prev_ = node;` —
note that the final statement writes `dummyHead_->prev_`
(that is what the source does; a standard tail insertion would
write `dummyTail_->prev_`). -/
def LruCache.insertNode (s : LruCache K V) (nid : Nat) : LruCache K V :=
  let h1 := setNext s.nodes nid tailId
  let h2 := setNext h1 ((h1 tailId).prev) nid
  let h3 := setPrev h2 nid ((h2 tailId).prev)
  let h4 := setPrev h3 headId nid
  { s with nodes := h4 }

/-- `moveToMostRecent(node)`: remove then insert. -/
def LruCache.moveToMostRecent (s : LruCache K V) (nid : Nat) : LruCache K V :=
  (s.removeNode nid).insertNode nid

/-- `evictLeastRecent()`: unlink `dummyHead_->next_` and erase its key from
the map. -/
def LruCache.evictLeastRecent (s : LruCache K V) : LruCache K V :=
  let lid := (s.nodes headId).next
  let s1 := s.removeNode lid
  { s1 with nodeMap := eraseA s1.nodeMap ((s1.nodes lid).key) }

/-- `addNewNode(key, value)`: evict when `nodeMap_.size() >= capacity_`
(this point is only reached with `capacity_ >= 1`, where the C++
`size_t` comparison agrees with comparing against `capacity.toNat`),
then allocate, link in, and record in the map. -/
def LruCache.addNewNode (s : LruCache K V) (k : K) (v : V) : LruCache K V :=
  let s := if s.nodeMap.length ≥ s.capacity.toNat then s.evictLeastRecent else s
  let nid := s.nextId
  let s := { s with
    nodes := setN s.nodes nid
      { key := k, value := v, accessCount := 1, prev := nullId, next := nullId }
    nextId := nid + 1 }
  let s := s.insertNode nid
  { s with nodeMap := upsertA s.nodeMap k nid }

/-- `put(key, value)`: no-op when `capacity_ <= 0`; update-and-touch when the
key is mapped, otherwise `addNewNode`. -/
def LruCache.put (s : LruCache K V) (k : K) (v : V) : LruCache K V :=
  if s.capacity ≤ 0 then s
  else
    match lookupA s.nodeMap k with
    | some nid =>
        let s1 := { s with nodes := setN s.nodes nid { s.nodes nid with value := v } }
        s1.moveToMostRecent nid
    | none => s.addNewNode k v

/-- `bool get(Key, Value&)`: on hit, move to most recent, read the value and
return true; on miss, return false leaving the out-parameter untouched. -/
def LruCache.get (s : LruCache K V) (k : K) (vin : V) : Bool × V × LruCache K V :=
  match lookupA s.nodeMap k with
  | some nid =>
      let s1 := s.moveToMostRecent nid
      (true, (s1.nodes nid).value, s1)
  | none => (false, vin, s)

/-- `Value get(Key)`: value-returning form, default-constructed value on
miss. -/
def LruCache.get1 (s : LruCache K V) (k : K) : V × LruCache K V :=
  let r := s.get k default
  (r.2.1, r.2.2)

/-- `remove(key)`: unlink and erase when present. -/
def LruCache.remove (s : LruCache K V) (k : K) : LruCache K V :=
  match lookupA s.nodeMap k with
  | some nid =>
      let s1 := s.removeNode nid
      { s1 with nodeMap := eraseA s1.nodeMap k }
  | none => s

/-! ## LruKCache (src/LruCache.h)

`LruKCache` inherits from `LruCache<Key, Value>` (the promotion store,
field `main` below) and owns an `LruCache<Key, size_t>` history of access
counters.  Its `put` tests promotion-store residency with
`LruCache<Key,Value>::get(key) != ""`, an empty-string sentinel, so the
value type is fixed to `String` as in the repository's usages. -/

structure LruKCache (K : Type) where
  k : Nat
  main : LruCache K String
  historyList : LruCache K Nat

/-- Constructor: base `LruCache(capacity)` plus a history store of
`historyCapacity`. -/
def LruKCache.init (capacity historyCapacity : Int) (k : Nat) : LruKCache K :=
  { k := k
    main := LruCache.init capacity
    historyList := LruCache.init historyCapacity }

/-- `LruKCache::get(key)`: bump the history counter
(`historyList_->put(key, ++historyCount)`), then a plain promotion-store
lookup. -/
def LruKCache.get (s : LruKCache K) (key : K) : String × LruKCache K :=
  let (historyCount, h1) := s.historyList.get1 key
  let h2 := h1.put key (historyCount + 1)
  let (v, m1) := s.main.get1 key
  (v, { s with main := m1, historyList := h2 })

/-- `LruKCache::put(key, value)`: overwrite when the promotion store already
holds the key (empty-string sentinel test), bump the history counter, and
admit to the promotion store once the counter reaches `k_`. -/
def LruKCache.put (s : LruKCache K) (key : K) (value : String) : LruKCache K :=
  let (v0, m1) := s.main.get1 key
  let m2 := if v0 ≠ "" then m1.put key value else m1
  let (historyCount, h1) := s.historyList.get1 key
  let hc1 := historyCount + 1
  let h2 := h1.put key hc1
  if hc1 ≥ s.k then
    { s with main := m2.put key value, historyList := h2.remove key }
  else
    { s with main := m2, historyList := h2 }

/-! ## LfuCache (src/LfuCache.h)

`FreqList<Key, Value>` buckets are doubly linked lists with dummy head and
tail; `addNode` appends before the tail, `getFirstNode` returns
`head_->next_`, and `removeNode` unlinks after a null-pointer guard.  Each
bucket is modelled by its chain contents in order (`List Nat` of node ids,
front = `head_->next_`).  The bucket map `freqToFreqList_` stores `FreqList*`
pointers and its `operator[]` value-initializes a missing entry to `nullptr`,
so the model stores `Option (List Nat)` with `none` for the null pointer. -/

/-- Node of `FreqList`: `int freq` (starts at 1), key, value; the intrusive
pointers are represented by the bucket chains. -/
structure LfuNode (K V : Type) where
  key : K
  value : V
  freq : Nat
deriving DecidableEq

/-- `INT_MAX`, the constructor's initial `minFreq_`. -/
def INTMAX : Nat := 2147483647

/-- `INT8_MAX`, the value `updateMinFreq` actually uses. -/
def INT8MAX : Nat := 127

/-- State of `Cache::LfuCache`.  `capacity`/`minFreq`/`maxAverageNum` are the
C++ `int` fields, nonnegative in every behaviour below; `curTotalNum` and
`curAverageNum` are kept as `Int` because the source subtracts from them. -/
structure LfuCache (K V : Type) where
  capacity : Nat
  minFreq : Nat
  maxAverageNum : Nat
  curAverageNum : Int
  curTotalNum : Int
  nodes : List (Nat × LfuNode K V)
  nextId : Nat
  nodeMap : List (K × Nat)
  freqLists : List (Nat × Option (List Nat))
deriving DecidableEq

/-- Constructor `LfuCache(capacity, maxAverageNum = 10)`. -/
def LfuCache.init (capacity maxAverageNum : Nat) : LfuCache K V :=
  { capacity := capacity
    minFreq := INTMAX
    maxAverageNum := maxAverageNum
    curAverageNum := 0
    curTotalNum := 0
    nodes := []
    nextId := 0
    nodeMap := []
    freqLists := [] }

/-- Heap read: dereferencing a node id.  Every id the source dereferences is
an allocated node; the default is never consulted in any behaviour below. -/
def LfuCache.node (s : LfuCache K V) (nid : Nat) : LfuNode K V :=
  (lookupA s.nodes nid).getD { key := default, value := default, freq := 1 }

/-- Heap write at a node id. -/
def LfuCache.setNode (s : LfuCache K V) (nid : Nat) (n : LfuNode K V) : LfuCache K V :=
  { s with nodes := upsertA s.nodes nid n }

/-- `freqToFreqList_[f]` read through `operator[]`: a missing entry is
inserted holding a null `FreqList*` (`none`). -/
def freqListsIndex (fl : List (Nat × Option (List Nat))) (f : Nat) :
    List (Nat × Option (List Nat)) × Option (List Nat) :=
  match lookupA fl f with
  | some b => (fl, b)
  | none => (fl ++ [(f, none)], none)

/-- `removeFromFreqList(node)`: look the bucket up by the node's current
frequency and unlink the node (`FreqList::removeNode`; the unlink is a
filter on the chain).  Calling `removeNode` through a null `FreqList*`
would be undefined behaviour in C++; the model leaves the state unchanged
beyond the `operator[]` insertion in that case. -/
def LfuCache.removeFromFreqList (s : LfuCache K V) (nid : Nat) : LfuCache K V :=
  let f := (s.node nid).freq
  let (fl, b) := freqListsIndex s.freqLists f
  match b with
  | some lst => { s with freqLists := upsertA fl f (some (lst.filter (fun x => x ≠ nid))) }
  | none => { s with freqLists := fl }

/-- `addToFreqList(node)`: create a real (empty) `FreqList` when the bucket
for the node's frequency is absent, then `addNode` appends the node at the
tail.  If the map already holds a null pointer for that frequency the C++
`addNode` call would be undefined behaviour; the model leaves the bucket as
is. -/
def LfuCache.addToFreqList (s : LfuCache K V) (nid : Nat) : LfuCache K V :=
  let f := (s.node nid).freq
  let fl :=
    match lookupA s.freqLists f with
    | none => upsertA s.freqLists f (some [])
    | some _ => s.freqLists
  match lookupA fl f with
  | some (some lst) => { s with freqLists := upsertA fl f (some (lst ++ [nid])) }
  | _ => { s with freqLists := fl }

/-- Loop body of `updateMinFreq()`: fold the running minimum over bucket-map
entries whose `FreqList*` is non-null and whose chain is non-empty. -/
def updateMinFreqStep (acc : Nat) (p : Nat × Option (List Nat)) : Nat :=
  match p.2 with
  | some b => if b ≠ [] then min acc p.1 else acc
  | none => acc

/-- `updateMinFreq()`: start from `INT8_MAX`, take the minimum frequency over
buckets that exist (non-null) and are non-empty, and fall back to 1 when the
result is still `INT8_MAX`. -/
def LfuCache.updateMinFreq (s : LfuCache K V) : LfuCache K V :=
  let m := s.freqLists.foldl updateMinFreqStep INT8MAX
  { s with minFreq := if m = INT8MAX then 1 else m }

/-- One iteration of the `handleOverMaxAverageNum` loop for a map entry:
remove the node from its bucket, subtract `maxAverageNum_ / 2` from its
frequency with a floor of 1 (truncating `Nat` subtraction followed by the
`< 1` clamp agrees with the C++ `int` computation), and re-add it. -/
def LfuCache.agingStep (s : LfuCache K V) (e : K × Nat) : LfuCache K V :=
  let nid := e.2
  let s1 := s.removeFromFreqList nid
  let f := (s1.node nid).freq
  let nf0 := f - s1.maxAverageNum / 2
  let nf := if nf0 < 1 then 1 else nf0
  let s2 := s1.setNode nid { s1.node nid with freq := nf }
  s2.addToFreqList nid

/-- `handleOverMaxAverageNum()`: early return on an empty map, otherwise age
every mapped node and recompute `minFreq`.  The C++ loop iterates the live
`nodeMap_`, which the loop body never modifies, so folding over the entry
list is the same iteration. -/
def LfuCache.handleOverMaxAverageNum (s : LfuCache K V) : LfuCache K V :=
  if s.nodeMap = [] then s
  else (s.nodeMap.foldl LfuCache.agingStep s).updateMinFreq

/-- `addFreqNum()`: bump the total, recompute the running average with the
C++ truncating division (`Int.tdiv`; the operands are nonnegative wherever the
theorems below look), and trigger the aging pass when it exceeds
`maxAverageNum_`. -/
def LfuCache.addFreqNum (s : LfuCache K V) : LfuCache K V :=
  let total := s.curTotalNum + 1
  let avg : Int := if s.nodeMap = [] then 0 else Int.tdiv total (s.nodeMap.length : Int)
  let s1 := { s with curTotalNum := total, curAverageNum := avg }
  if s1.curAverageNum > (s1.maxAverageNum : Int) then s1.handleOverMaxAverageNum else s1

/-- `decreaseFreqNum(num)`: called after an eviction with the evicted node's
frequency. -/
def LfuCache.decreaseFreqNum (s : LfuCache K V) (num : Int) : LfuCache K V :=
  let total := s.curTotalNum - num
  let avg : Int :=
    if s.nodeMap = [] then 0
    else s.curAverageNum - Int.tdiv total (s.nodeMap.length : Int)
  { s with curTotalNum := total, curAverageNum := avg }

/-- `getInternal(node, value)`: read the value, move the node from bucket `f`
to bucket `f + 1`, advance `minFreq_` when the node left an emptied minimum
bucket (the `operator[]` in the emptiness test only runs when the first
conjunct holds, mirroring `&&` short-circuiting; `isEmpty()` through a null
pointer would be undefined behaviour and is modelled as no advance), then
`addFreqNum`. -/
def LfuCache.getInternal (s : LfuCache K V) (nid : Nat) : V × LfuCache K V :=
  let v := (s.node nid).value
  let s1 := s.removeFromFreqList nid
  let s2 := s1.setNode nid { s1.node nid with freq := (s1.node nid).freq + 1 }
  let s3 := s2.addToFreqList nid
  let f := (s3.node nid).freq
  let s4 :=
    if f - 1 = s3.minFreq then
      let (fl, b) := freqListsIndex s3.freqLists (f - 1)
      let s3a := { s3 with freqLists := fl }
      match b with
      | some lst => if lst = [] then { s3a with minFreq := s3a.minFreq + 1 } else s3a
      | none => s3a
    else s3
  (v, s4.addFreqNum)

/-- `kickOut()`: take `freqToFreqList_[minFreq_]->getFirstNode()` and remove
it.  When that bucket is a real but empty list, `getFirstNode` returns the
bucket's dummy tail node — a default-constructed `Node` whose `freq` is 1 and
whose key/value are value-initialized (`default`); `removeFromFreqList` then
looks up bucket 1 (an `operator[]` access) and `FreqList::removeNode` no-ops
on the sentinel because its `next` pointer is null, after which the map
erase targets the sentinel's default key and `decreaseFreqNum(1)` runs.
When the bucket pointer is null, `getFirstNode` would dereference a null
pointer — undefined behaviour, modelled as no further effect. -/
def LfuCache.kickOut (s : LfuCache K V) : LfuCache K V :=
  let (fl, b) := freqListsIndex s.freqLists s.minFreq
  let s0 := { s with freqLists := fl }
  match b with
  | none => s0
  | some [] =>
      let (fl1, _) := freqListsIndex s0.freqLists 1
      let s1 := { s0 with freqLists := fl1 }
      let s2 := { s1 with nodeMap := eraseA s1.nodeMap (default : K) }
      s2.decreaseFreqNum 1
  | some (nid :: _) =>
      let s1 := s0.removeFromFreqList nid
      let s2 := { s1 with nodeMap := eraseA s1.nodeMap ((s1.node nid).key) }
      s2.decreaseFreqNum ((s2.node nid).freq : Int)

/-- `putInternal(key, value)`: evict when `nodeMap_.size() == capacity_`,
then create the node (frequency 1), map it, bucket it, `addFreqNum`, and
finally `minFreq_ = min(minFreq_, 1)`. -/
def LfuCache.putInternal (s : LfuCache K V) (k : K) (v : V) : LfuCache K V :=
  let s := if s.nodeMap.length = s.capacity then s.kickOut else s
  let nid := s.nextId
  let s :=
    { s.setNode nid { key := k, value := v, freq := 1 } with
      nextId := nid + 1
      nodeMap := upsertA s.nodeMap k nid }
  let s := s.addToFreqList nid
  let s := s.addFreqNum
  { s with minFreq := min s.minFreq 1 }

/-- `put(key, value)`: no-op when `capacity_ == 0`; write the value and run
`getInternal` on an existing node, otherwise `putInternal`. -/
def LfuCache.put (s : LfuCache K V) (k : K) (v : V) : LfuCache K V :=
  if s.capacity = 0 then s
  else
    match lookupA s.nodeMap k with
    | some nid =>
        let s1 := s.setNode nid { s.node nid with value := v }
        (s1.getInternal nid).2
    | none => s.putInternal k v

/-- `bool get(Key, Value&)`. -/
def LfuCache.get (s : LfuCache K V) (k : K) (vin : V) : Bool × V × LfuCache K V :=
  match lookupA s.nodeMap k with
  | some nid =>
      let (v, s1) := s.getInternal nid
      (true, v, s1)
  | none => (false, vin, s)

/-- `purge()`: clear the node map and the bucket map (the counters and
`minFreq_` are left as they are). -/
def LfuCache.purge (s : LfuCache K V) : LfuCache K V :=
  { s with nodeMap := [], freqLists := [] }

/-! ## HashLfuCache (src/LfuCache.h) -/

/-- `std::thread::hardware_concurrency()` is machine dependent; the model
fixes a positive value.  Every theorem below passes a positive slice count,
for which this default is never consulted. -/
def hardwareConcurrency : Nat := 8

/-- State of `Cache::HashLfuCache`: slice count and the shard vector. -/
structure HashLfuCache (K V : Type) where
  capacity : Nat
  sliceNum : Nat
  shards : List (LfuCache K V)

/-- Constructor: `sliceNum_ = sliceNum > 0 ? sliceNum : hardware_concurrency()`,
per-shard capacity `ceil(capacity / sliceNum_)`, and a construction loop
bounded by the raw `sliceNum` argument (not `sliceNum_`), as in the source. -/
def HashLfuCache.init (capacity sliceNum maxAverageNum : Nat) : HashLfuCache K V :=
  let sn := if 0 < sliceNum then sliceNum else hardwareConcurrency
  let sliceSize := (capacity + sn - 1) / sn
  { capacity := capacity
    sliceNum := sn
    shards := (List.range sliceNum).map fun _ => LfuCache.init sliceSize maxAverageNum }

/-- `HashLfuCache::put(key, value)` exactly as written in the source:
`return lfuSliceCaches_[sliceIndex]->get(key, value);` — it calls the
shard's `get`, not `put`.  `hash` stands for `std::hash<Key>`; an
out-of-range vector access (impossible for positive slice counts) would be
undefined behaviour and is modelled as a no-op. -/
def HashLfuCache.put (hash : K → Nat) (s : HashLfuCache K V) (k : K) (v : V) :
    HashLfuCache K V :=
  let sliceIndex := hash k % s.sliceNum
  match s.shards.get? sliceIndex with
  | some shard => { s with shards := s.shards.set sliceIndex (shard.get k v).2.2 }
  | none => s

/-- Modelled from the spec: the uniform `get(key) -> (value, hit)` contract
routed to `hash(key) mod N`.  The source's `HashLfuCache::get(Key)` calls a
two-argument `get` overload that does not exist in the class (the class
would not compile if instantiated), so the shard-routed `LfuCache::get` that
the call names is used, mirroring `HashLruCaches::get`. -/
def HashLfuCache.get (hash : K → Nat) (s : HashLfuCache K V) (k : K) :
    Bool × V × HashLfuCache K V :=
  let sliceIndex := hash k % s.sliceNum
  match s.shards.get? sliceIndex with
  | some shard =>
      let (hit, v, sh) := shard.get k default
      (hit, v, { s with shards := s.shards.set sliceIndex sh })
  | none => (false, default, s)

/-! ## ARC (src/ArcCache/ArcLruPart.h, ArcLfuPart.h, ArcCache.h)

The node class lives in `ArcCacheNode.h`, which is not under `src/`. -/

/-- Modelled from the spec: `ArcCacheNode.h` is missing from the sources;
per §3 of the spec an entry is `{key, value, accessCount}` with
`accessCount` reset to 1 whenever an entry is freshly created, and the
`prev_`/`next_` pointers are represented by the explicit chain lists of the
two parts. -/
structure ArcNode (K V : Type) where
  key : K
  value : V
  accessCount : Nat
deriving DecidableEq

/-- State of `Cache::ArcLruPart`.  `mainList` is the main chain in order from
`mainHead_` to `mainTail_` (front = most recently used); `ghostList` is the
ghost chain from `ghostHead_` to `ghostTail_` (this part inserts ghosts at
the head, so the front is the most recently ghosted and the back is the
oldest). -/
structure ArcLruPart (K V : Type) where
  capacity : Nat
  ghostCapacity : Nat
  transformThreshold : Nat
  nodes : List (Nat × ArcNode K V)
  nextId : Nat
  mainCache : List (K × Nat)
  ghostCache : List (K × Nat)
  mainList : List Nat
  ghostList : List Nat
deriving DecidableEq

/-- Constructor `ArcLruPart(capacity, transformThreshold)`: the ghost
capacity is fixed to the initial capacity. -/
def ArcLruPart.init (capacity transformThreshold : Nat) : ArcLruPart K V :=
  { capacity := capacity
    ghostCapacity := capacity
    transformThreshold := transformThreshold
    nodes := []
    nextId := 0
    mainCache := []
    ghostCache := []
    mainList := []
    ghostList := [] }

def ArcLruPart.node (s : ArcLruPart K V) (nid : Nat) : ArcNode K V :=
  (lookupA s.nodes nid).getD { key := default, value := default, accessCount := 1 }

def ArcLruPart.setNode (s : ArcLruPart K V) (nid : Nat) (n : ArcNode K V) :
    ArcLruPart K V :=
  { s with nodes := upsertA s.nodes nid n }

/-- `removeOldestGhost()`: drop `ghostTail_->prev_` (the back of the ghost
chain) unless the chain is empty, erasing its key from the ghost map. -/
def ArcLruPart.removeOldestGhost (s : ArcLruPart K V) : ArcLruPart K V :=
  match s.ghostList.getLast? with
  | none => s
  | some gid =>
      { s with
        ghostList := s.ghostList.dropLast
        ghostCache := eraseA s.ghostCache ((s.node gid).key) }

/-- `addToGhost(node)`: reset the access count to 1, insert at the head of
the ghost chain, and record the key in the ghost map. -/
def ArcLruPart.addToGhost (s : ArcLruPart K V) (nid : Nat) : ArcLruPart K V :=
  let s1 := s.setNode nid { s.node nid with accessCount := 1 }
  { s1 with
    ghostList := nid :: s1.ghostList
    ghostCache := upsertA s1.ghostCache ((s1.node nid).key) nid }

/-- `evictLeastRecent()`: take `mainTail_->prev_` (back of the main chain;
return if the chain is empty), unlink it, make room in the ghost list if it
is at capacity, move the node to the ghost side, and erase the key from the
main map. -/
def ArcLruPart.evictLeastRecent (s : ArcLruPart K V) : ArcLruPart K V :=
  match s.mainList.getLast? with
  | none => s
  | some lid =>
      let s1 := { s with mainList := s.mainList.dropLast }
      let s2 := if s1.ghostCache.length ≥ s1.ghostCapacity then s1.removeOldestGhost else s1
      let s3 := s2.addToGhost lid
      { s3 with mainCache := eraseA s3.mainCache ((s3.node lid).key) }

/-- `addNewNode(key, value)`: evict when the main cache is at or above
capacity, then allocate, map, and `addToFront`. -/
def ArcLruPart.addNewNode (s : ArcLruPart K V) (k : K) (v : V) : ArcLruPart K V :=
  let s1 := if s.mainCache.length ≥ s.capacity then s.evictLeastRecent else s
  let nid := s1.nextId
  let s2 := { s1.setNode nid { key := k, value := v, accessCount := 1 } with nextId := nid + 1 }
  { s2 with
    mainCache := upsertA s2.mainCache k nid
    mainList := nid :: s2.mainList }

/-- `bool put(Key, Value)`: fails only when `capacity_ == 0`; updates in
place (`setValue` + `moveToFront`) or adds a new node. -/
def ArcLruPart.put (s : ArcLruPart K V) (k : K) (v : V) : Bool × ArcLruPart K V :=
  if s.capacity = 0 then (false, s)
  else
    match lookupA s.mainCache k with
    | some nid =>
        let s1 := s.setNode nid { s.node nid with value := v }
        (true, { s1 with mainList := nid :: s1.mainList.filter (fun x => x ≠ nid) })
    | none => (true, s.addNewNode k v)

/-- `bool get(Key, Value&, bool& shouldTransform)`: on a hit, move to front,
bump the access count and report whether it reached `transformThreshold_`;
on a miss both out-parameters keep their caller-side values (`false` for
`shouldTransform` at the only call site). -/
def ArcLruPart.get (s : ArcLruPart K V) (k : K) (vin : V) :
    Bool × V × Bool × ArcLruPart K V :=
  match lookupA s.mainCache k with
  | some nid =>
      let s1 := { s with mainList := nid :: s.mainList.filter (fun x => x ≠ nid) }
      let s2 := s1.setNode nid { s1.node nid with accessCount := (s1.node nid).accessCount + 1 }
      let shouldTransform := (s2.node nid).accessCount ≥ s2.transformThreshold
      (true, (s2.node nid).value, shouldTransform, s2)
  | none => (false, vin, false, s)

/-- `inLruMainCache(key)`. -/
def ArcLruPart.inLruMainCache (s : ArcLruPart K V) (k : K) : Bool :=
  (lookupA s.mainCache k).isSome

/-- `checkGhost(key)`: remove the ghost entry and report whether it was
there. -/
def ArcLruPart.checkGhost (s : ArcLruPart K V) (k : K) : Bool × ArcLruPart K V :=
  match lookupA s.ghostCache k with
  | some gid =>
      (true,
        { s with
          ghostList := s.ghostList.filter (fun x => x ≠ gid)
          ghostCache := eraseA s.ghostCache k })
  | none => (false, s)

/-- `increaseCapacity()`: unconditional `capacity_++`. -/
def ArcLruPart.increaseCapacity (s : ArcLruPart K V) : ArcLruPart K V :=
  { s with capacity := s.capacity + 1 }

/-- `decreaseCapacity()`: returns `false` when the capacity is already 0;
otherwise evicts one entry first when the main cache is exactly full, then
decrements. -/
def ArcLruPart.decreaseCapacity (s : ArcLruPart K V) : Bool × ArcLruPart K V :=
  if s.capacity = 0 then (false, s)
  else
    let s1 := if s.mainCache.length = s.capacity then s.evictLeastRecent else s
    (true, { s1 with capacity := s1.capacity - 1 })

/-- State of `Cache::ArcLfuPart`.  `freqMap` models the ordered
`std::map<size_t, std::list<NodePtr>>` as an association list whose minimum
key is computed by `freqMapMinKey` (the `freqMap_.begin()->first` of the
sorted C++ map); `ghostList` is the ghost chain from `ghostHead_` to
`ghostTail_` (this part appends ghosts at the tail, so the front is the
oldest ghost). -/
structure ArcLfuPart (K V : Type) where
  capacity : Nat
  ghostCapacity : Nat
  transformThreshold : Nat
  minFreq : Nat
  nodes : List (Nat × ArcNode K V)
  nextId : Nat
  mainCache : List (K × Nat)
  ghostCache : List (K × Nat)
  freqMap : List (Nat × List Nat)
  ghostList : List Nat
deriving DecidableEq

/-- Constructor `ArcLfuPart(capacity, transformThreshold)`: ghost capacity
fixed to the initial capacity and `minFreq_ = 0`. -/
def ArcLfuPart.init (capacity transformThreshold : Nat) : ArcLfuPart K V :=
  { capacity := capacity
    ghostCapacity := capacity
    transformThreshold := transformThreshold
    minFreq := 0
    nodes := []
    nextId := 0
    mainCache := []
    ghostCache := []
    freqMap := []
    ghostList := [] }

def ArcLfuPart.node (s : ArcLfuPart K V) (nid : Nat) : ArcNode K V :=
  (lookupA s.nodes nid).getD { key := default, value := default, accessCount := 1 }

def ArcLfuPart.setNode (s : ArcLfuPart K V) (nid : Nat) (n : ArcNode K V) :
    ArcLfuPart K V :=
  { s with nodes := upsertA s.nodes nid n }

/-- `freqMap_.begin()->first` of the ordered C++ map: the least key present
(meaningful only for a non-empty map, the only way the source uses it). -/
def freqMapMinKey (fm : List (Nat × List Nat)) : Nat :=
  match fm.map Prod.fst with
  | [] => 0
  | f :: t => t.foldl min f

/-- `removeOldestGhost()`: drop `ghostHead_->next_` (front of the ghost
chain) unless the chain is empty. -/
def ArcLfuPart.removeOldestGhost (s : ArcLfuPart K V) : ArcLfuPart K V :=
  match s.ghostList with
  | [] => s
  | gid :: t =>
      { s with
        ghostList := t
        ghostCache := eraseA s.ghostCache ((s.node gid).key) }

/-- `addToGhost(node)`: reset the access count, append at the tail of the
ghost chain, record the key. -/
def ArcLfuPart.addToGhost (s : ArcLfuPart K V) (nid : Nat) : ArcLfuPart K V :=
  let s1 := s.setNode nid { s.node nid with accessCount := 1 }
  { s1 with
    ghostList := s1.ghostList ++ [nid]
    ghostCache := upsertA s1.ghostCache ((s1.node nid).key) nid }

/-- `evictLeastFrequent()`: pop the front of the `minFreq_` bucket
(`freqMap_[minFreq_]` is an `operator[]` access that default-constructs an
empty list when absent — the inserted empty bucket then stays in the map);
return early if the map or that bucket is empty; erase the bucket and
recompute `minFreq_` from the least key when the bucket empties; then move
the node to the ghost side and erase it from the main map. -/
def ArcLfuPart.evictLeastFrequent (s : ArcLfuPart K V) : ArcLfuPart K V :=
  if s.freqMap = [] then s
  else
    let fm :=
      match lookupA s.freqMap s.minFreq with
      | some _ => s.freqMap
      | none => s.freqMap ++ [(s.minFreq, [])]
    match (lookupA fm s.minFreq).getD [] with
    | [] => { s with freqMap := fm }
    | leastId :: rest =>
        let fm1 := if rest = [] then eraseA fm s.minFreq else upsertA fm s.minFreq rest
        let minF1 :=
          if rest = [] then (if fm1 = [] then s.minFreq else freqMapMinKey fm1)
          else s.minFreq
        let s1 := { s with freqMap := fm1, minFreq := minF1 }
        let s2 := if s1.ghostCache.length ≥ s1.ghostCapacity then s1.removeOldestGhost else s1
        let s3 := s2.addToGhost leastId
        { s3 with mainCache := eraseA s3.mainCache ((s3.node leastId).key) }

/-- `updateNodeFrequency(node)`: bump the access count, remove the node from
the old bucket (`freqMap_[oldFreq]` creates an empty bucket when absent;
`std::list::remove` erases all elements equal to the pointer), erase the
bucket and advance `minFreq_` to the new frequency when the old bucket
empties and was the minimum, then append to the (created if necessary) new
bucket. -/
def ArcLfuPart.updateNodeFrequency (s : ArcLfuPart K V) (nid : Nat) : ArcLfuPart K V :=
  let oldFreq := (s.node nid).accessCount
  let s1 := s.setNode nid { s.node nid with accessCount := oldFreq + 1 }
  let newFreq := oldFreq + 1
  let fm :=
    match lookupA s1.freqMap oldFreq with
    | some _ => s1.freqMap
    | none => s1.freqMap ++ [(oldFreq, [])]
  let oldList1 := ((lookupA fm oldFreq).getD []).filter (fun x => x ≠ nid)
  let fm1 := if oldList1 = [] then eraseA fm oldFreq else upsertA fm oldFreq oldList1
  let minF1 :=
    if oldList1 = [] then (if oldFreq = s1.minFreq then newFreq else s1.minFreq)
    else s1.minFreq
  let fm2 :=
    match lookupA fm1 newFreq with
    | some _ => fm1
    | none => fm1 ++ [(newFreq, [])]
  let fm3 := upsertA fm2 newFreq (((lookupA fm2 newFreq).getD []) ++ [nid])
  { s1 with freqMap := fm3, minFreq := minF1 }

/-- `addNewNode(key, value)`: evict when at or above capacity, allocate, map,
place in the (created if necessary) frequency-1 bucket, and set
`minFreq_ = 1`. -/
def ArcLfuPart.addNewNode (s : ArcLfuPart K V) (k : K) (v : V) : ArcLfuPart K V :=
  let s1 := if s.mainCache.length ≥ s.capacity then s.evictLeastFrequent else s
  let nid := s1.nextId
  let s2 := { s1.setNode nid { key := k, value := v, accessCount := 1 } with nextId := nid + 1 }
  let s3 := { s2 with mainCache := upsertA s2.mainCache k nid }
  let fm :=
    match lookupA s3.freqMap 1 with
    | some _ => s3.freqMap
    | none => s3.freqMap ++ [(1, [])]
  { s3 with
    freqMap := upsertA fm 1 (((lookupA fm 1).getD []) ++ [nid])
    minFreq := 1 }

/-- `bool put(Key, Value)`. -/
def ArcLfuPart.put (s : ArcLfuPart K V) (k : K) (v : V) : Bool × ArcLfuPart K V :=
  if s.capacity = 0 then (false, s)
  else
    match lookupA s.mainCache k with
    | some nid =>
        let s1 := s.setNode nid { s.node nid with value := v }
        (true, s1.updateNodeFrequency nid)
    | none => (true, s.addNewNode k v)

/-- `bool get(Key, Value&)`: bump the frequency and read the value on a
hit. -/
def ArcLfuPart.get (s : ArcLfuPart K V) (k : K) (vin : V) :
    Bool × V × ArcLfuPart K V :=
  match lookupA s.mainCache k with
  | some nid =>
      let s1 := s.updateNodeFrequency nid
      (true, (s1.node nid).value, s1)
  | none => (false, vin, s)

/-- `inLfuMainCache(key)`. -/
def ArcLfuPart.inLfuMainCache (s : ArcLfuPart K V) (k : K) : Bool :=
  (lookupA s.mainCache k).isSome

/-- `checkGhost(key)`. -/
def ArcLfuPart.checkGhost (s : ArcLfuPart K V) (k : K) : Bool × ArcLfuPart K V :=
  match lookupA s.ghostCache k with
  | some gid =>
      (true,
        { s with
          ghostList := s.ghostList.filter (fun x => x ≠ gid)
          ghostCache := eraseA s.ghostCache k })
  | none => (false, s)

/-- `increaseCapacity()`. -/
def ArcLfuPart.increaseCapacity (s : ArcLfuPart K V) : ArcLfuPart K V :=
  { s with capacity := s.capacity + 1 }

/-- `decreaseCapacity()` exactly as written in the source: it returns `true`
when `capacity_ <= 0` (its `ArcLruPart` counterpart returns `false` there);
otherwise it evicts first when exactly full, then decrements. -/
def ArcLfuPart.decreaseCapacity (s : ArcLfuPart K V) : Bool × ArcLfuPart K V :=
  if s.capacity = 0 then (true, s)
  else
    let s1 := if s.mainCache.length = s.capacity then s.evictLeastFrequent else s
    (true, { s1 with capacity := s1.capacity - 1 })

/-- State of `Cache::ArcCache`: the two parts plus the construction
parameters. -/
structure ArcCache (K V : Type) where
  capacity : Nat
  transformThreshold : Nat
  lruPart : ArcLruPart K V
  lfuPart : ArcLfuPart K V
deriving DecidableEq

/-- Constructor `ArcCache(capacity = 10, transformThreshold = 3)`. -/
def ArcCache.init (capacity transformThreshold : Nat) : ArcCache K V :=
  { capacity := capacity
    transformThreshold := transformThreshold
    lruPart := ArcLruPart.init capacity transformThreshold
    lfuPart := ArcLfuPart.init capacity transformThreshold }

/-- `checkGhostCaches(key)`: probe the LRU-partition ghost list first; on a
hit there, shrink the LFU partition and — when `decreaseCapacity` reported
success — grow the LRU partition.  Symmetrically for the LFU-partition ghost
list. -/
def ArcCache.checkGhostCaches (s : ArcCache K V) (k : K) : Bool × ArcCache K V :=
  let (hitLruGhost, lru1) := s.lruPart.checkGhost k
  if hitLruGhost then
    let (ok, lfu1) := s.lfuPart.decreaseCapacity
    let lru2 := if ok then lru1.increaseCapacity else lru1
    (true, { s with lruPart := lru2, lfuPart := lfu1 })
  else
    let (hitLfuGhost, lfu1) := s.lfuPart.checkGhost k
    if hitLfuGhost then
      let (ok, lru2) := lru1.decreaseCapacity
      let lfu2 := if ok then lfu1.increaseCapacity else lfu1
      (true, { s with lruPart := lru2, lfuPart := lfu2 })
    else
      (false, { s with lruPart := lru1, lfuPart := lfu1 })

/-- `ArcCache::put(key, value)`: ghost check first; on a ghost hit the write
always goes to the LRU partition, otherwise it goes to the LFU partition
exactly when the key is resident in the LFU main cache. -/
def ArcCache.put (s : ArcCache K V) (k : K) (v : V) : ArcCache K V :=
  let (inGhost, s1) := s.checkGhostCaches k
  if inGhost then
    { s1 with lruPart := (s1.lruPart.put k v).2 }
  else if s1.lfuPart.inLfuMainCache k then
    { s1 with lfuPart := (s1.lfuPart.put k v).2 }
  else
    { s1 with lruPart := (s1.lruPart.put k v).2 }

/-- `ArcCache::get(key, value)`: unconditional ghost check, then the LRU
partition (promoting into the LFU partition when the transform signal
fires), falling back to the LFU partition. -/
def ArcCache.get (s : ArcCache K V) (k : K) (vin : V) : Bool × V × ArcCache K V :=
  let (_, s1) := s.checkGhostCaches k
  let (hit, v, shouldTransform, lru1) := s1.lruPart.get k vin
  let s2 := { s1 with lruPart := lru1 }
  if hit then
    let s3 :=
      if shouldTransform then { s2 with lfuPart := (s2.lfuPart.put k v).2 } else s2
    (true, v, s3)
  else
    let (hitLfu, v2, lfu1) := s2.lfuPart.get k vin
    (hitLfu, v2, { s2 with lfuPart := lfu1 })


/-! ## Derived views and concrete states referenced by the development -/

/-- The chain contents of the bucket at frequency `f` (empty when the bucket
is absent or the stored `FreqList*` is null). -/
def LfuCache.bucket (s : LfuCache K V) (f : Nat) : List Nat :=
  match lookupA s.freqLists f with
  | some (some b) => b
  | _ => []

/-- The frequencies whose bucket exists (non-null `FreqList*`) and holds at
least one node: the buckets `updateMinFreq` scans. -/
def liveFreqsOf (fl : List (Nat × Option (List Nat))) : List Nat :=
  fl.filterMap (fun p =>
    match p.2 with
    | some b => if b ≠ [] then some p.1 else none
    | none => none)

/-- The live frequencies of a cache state. -/
def LfuCache.liveFreqs (s : LfuCache K V) : List Nat := liveFreqsOf s.freqLists

/-- One `get` call (two-argument form, discarding the outputs) on an
`LfuCache Nat Nat`. -/
def lfuDoGet (k : Nat) (s : LfuCache Nat Nat) : LfuCache Nat Nat :=
  (s.get k 0).2.2

/-- The state of `LfuCache<int,int>(capacity 1, maxAverageNum 1)` after
`put(5, 0)` followed by `j` calls of `get(5)`, for `0 ≤ j ≤ 125`, in closed
form: the single node has frequency `j + 1`, every bucket `1 … j` has been
visited and left empty, and `minFreq`, the running total and the running
average are all `j + 1`. -/
def lfuChk (j : Nat) : LfuCache Nat Nat :=
  { capacity := 1
    minFreq := j + 1
    maxAverageNum := 1
    curAverageNum := (j : Int) + 1
    curTotalNum := (j : Int) + 1
    nodes := [(0, { key := 5, value := 0, freq := j + 1 })]
    nextId := 1
    nodeMap := [(5, 0)]
    freqLists := ((List.range j).map fun i => (i + 1, some [])) ++ [(j + 1, some [0])] }

/-- The state after the 126th `get(5)`: the node reaches frequency 127, and
`updateMinFreq` (triggered because the running average 127 exceeds
`maxAverageNum = 1`) folds `min` from `INT8_MAX = 127`, stays at 127, and
therefore resets `minFreq_` to 1 — even though the only non-empty bucket is
bucket 127. -/
def lfuAged : LfuCache Nat Nat :=
  { lfuChk 126 with minFreq := 1 }

/-- The C1 failing sequence: `put(5,0)`, 126 × `get(5)`, then `put(7,0)` on
an `LfuCache` of capacity 1. -/
def lfuSeqC1 : LfuCache Nat Nat :=
  ((lfuDoGet 5)^[126] ((LfuCache.init 1 1).put 5 0)).put 7 0

/-- The C3 sequence: `LruCache<int,string>(2)`; `put(1,"a"); put(2,"b");
put(3,"c")`. -/
def lruSeqC3 : LruCache Nat String :=
  (((LruCache.init 2).put 1 "a").put 2 "b").put 3 "c"

/-- Interleaved `put`/`get` driver for `ArcCache Nat String` traces: an
operation `(true, k, v)` is `put(k, v)` and `(false, k, _)` is `get(k)`
(two-argument form, results discarded). -/
def runArc (s : ArcCache Nat String) (ops : List (Bool × Nat × String)) :
    ArcCache Nat String :=
  ops.foldl (fun s op => if op.1 then s.put op.2.1 op.2.2 else (s.get op.2.1 "").2.2) s

/-- The C2 failing sequence on `ArcCache(capacity 1, transformThreshold 1)`. -/
def arcSeqC2 : List (Bool × Nat × String) :=
  [(true, 1, "a"), (true, 2, "b"), (false, 1, ""), (true, 3, "c"),
   (true, 4, "d"), (false, 2, "")]

/-- The C5 failing sequence on `ArcCache(capacity 2, transformThreshold 1)`. -/
def arcSeqC5 : List (Bool × Nat × String) :=
  [(true, 10, "a"), (false, 10, ""), (true, 20, "b"), (false, 20, ""),
   (false, 10, ""), (false, 20, ""), (true, 30, "c"), (true, 40, "d"),
   (false, 20, ""), (true, 10, "e"), (true, 50, "f"), (false, 40, ""),
   (false, 30, ""), (true, 10, "g")]

/-- The state of `LfuCache<int,int>(capacity 1, maxAverageNum 10)` after
`put(1,10); get(1); get(1)`: one node of frequency 3, `minFreq = 3`. -/
def lfuSeqC8 : LfuCache Nat Nat :=
  lfuDoGet 1 (lfuDoGet 1 ((LfuCache.init 1 10).put 1 10))

/-- The C9 counterexample sequence: `LruKCache(capacity 3, historyCapacity 3,
k = 3)`; `put(1,"a"); put(1,"a"); get(1)` — three accesses, the third being a
`get`. -/
def lruKSeqC9 : LruKCache Nat :=
  ((((LruKCache.init 3 3 3).put 1 "a").put 1 "a").get 1).2

/-- The C10 counterexample state: `ArcCache(capacity 1, transformThreshold
3)` after `put(1,"a"); put(2,"b")` — key 1 now sits in the LRU partition's
ghost list and in no main cache. -/
def arcSeqC10 : ArcCache Nat String :=
  ((ArcCache.init 1 3).put 1 "a").put 2 "b"

/-- The C6 counterexample sequence on `ArcCache(capacity 1,
transformThreshold 1)`: ghost-driven transfers drain the LRU partition's
capacity to 0. -/
def arcSeqC6 : List (Bool × Nat × String) :=
  [(true, 1, "a"), (false, 1, ""), (true, 2, "b"), (false, 2, ""),
   (true, 3, "c"), (false, 1, "")]

/-- The reachable `ArcCache` state with LRU-partition capacity 0. -/
def arcC6pre : ArcCache Nat String := runArc (ArcCache.init 1 1) arcSeqC6

/-- The key is present in the `ArcCache`'s LRU-partition main cache with
value `v`. -/
def writtenInLruMain (s : ArcCache K V) (k : K) (v : V) : Prop :=
  ∃ nid, lookupA s.lruPart.mainCache k = some nid ∧ (s.lruPart.node nid).value = v

/-- `ArcCache(2, 1)` after `put(1,"a"); get(1)`: key 1 has been promoted, so
it is LFU-resident (node id 0) and in no ghost list. -/
def arcWitA : ArcCache Nat String :=
  (((ArcCache.init 2 1).put 1 "a").get 1 "").2.2

/-- The C5 sequence stopped one operation short: key 10 sits only in the
LFU partition's ghost list (ghost id 0) and the LRU partition's capacity is
4. -/
def arcWitD : ArcCache Nat String :=
  runArc (ArcCache.init 2 1) (arcSeqC5.take 13)

/-- A small concrete LFU state: one resident node (id 1, key 5, freq 1). -/
def lfuWitC8 : LfuCache Nat String :=
  { capacity := 2
    minFreq := 1
    maxAverageNum := 10
    curAverageNum := 1
    curTotalNum := 1
    nodes := [(1, { key := 5, value := "a", freq := 1 })]
    nextId := 2
    nodeMap := [(5, 1)]
    freqLists := [(1, some [1])] }

/-- A concrete LFU state mid-aging: two residents with frequencies 3 and 12,
`maxAverageNum` 8. -/
def lfuWitC7 : LfuCache Nat String :=
  { capacity := 2
    minFreq := 3
    maxAverageNum := 8
    curAverageNum := 9
    curTotalNum := 18
    nodes := [(1, { key := 5, value := "a", freq := 3 }),
              (2, { key := 6, value := "b", freq := 12 })]
    nextId := 3
    nodeMap := [(5, 1), (6, 2)]
    freqLists := [(3, some [1]), (12, some [2])] }

/-- A concrete LFU state whose only live frequency is at least `INT8_MAX`. -/
def lfuWitC7b : LfuCache Nat String :=
  { capacity := 2
    minFreq := 200
    maxAverageNum := 8
    curAverageNum := 9
    curTotalNum := 18
    nodes := [(1, { key := 5, value := "a", freq := 200 })]
    nextId := 2
    nodeMap := [(5, 1)]
    freqLists := [(200, some [1])] }

/-! ## Helper lemmas -/

theorem lookupA_upsertA_self {K V : Type} [DecidableEq K] (m : List (K × V)) (k : K) (v : V) :
    lookupA (upsertA m k v) k = some v := by
  induction m with
  | nil => simp [upsertA, lookupA]
  | cons h t ih =>
      obtain ⟨k0, v0⟩ := h
      by_cases hk : k = k0 <;> simp [upsertA, lookupA, hk, ih]

theorem lookupA_upsertA_other {K V : Type} [DecidableEq K] (m : List (K × V)) (k k1 : K)
    (v : V) (h : k1 ≠ k) : lookupA (upsertA m k v) k1 = lookupA m k1 := by
  induction m with
  | nil => simp [upsertA, lookupA, h]
  | cons hd t ih =>
      obtain ⟨k0, v0⟩ := hd
      by_cases hk : k = k0
      · subst hk
        simp [upsertA, lookupA, h]
      · by_cases hk1 : k1 = k0 <;> simp [upsertA, lookupA, hk, hk1, ih]

theorem lookupA_append_right {K V : Type} [DecidableEq K] (m : List (K × V)) (k k1 : K)
    (v : V) (h : k1 ≠ k) : lookupA (m ++ [(k, v)]) k1 = lookupA m k1 := by
  induction m with
  | nil => simp [lookupA, h]
  | cons hd t ih =>
      obtain ⟨k0, v0⟩ := hd
      by_cases hk1 : k1 = k0 <;> simp [lookupA, hk1, ih]

theorem lookupA_append_left {K V : Type} [DecidableEq K] (m m2 : List (K × V)) (k : K)
    (w : V) (h : lookupA m k = some w) : lookupA (m ++ m2) k = some w := by
  induction m with
  | nil => simp [lookupA] at h
  | cons hd t ih =>
      obtain ⟨k0, v0⟩ := hd
      by_cases hk : k = k0
      · simp_all [lookupA]
      · simp_all [lookupA]

theorem upsertA_ne_nil {K V : Type} [DecidableEq K] (m : List (K × V)) (k : K) (v : V) :
    upsertA m k v ≠ [] := by
  cases m with
  | nil => simp [upsertA]
  | cons hd t =>
      obtain ⟨k0, v0⟩ := hd
      by_cases hk : k = k0 <;> simp [upsertA, hk]

theorem LfuCache.removeFromFreqList_nodes (s : LfuCache K V) (nid : Nat) :
    (s.removeFromFreqList nid).nodes = s.nodes := by
  unfold LfuCache.removeFromFreqList freqListsIndex
  rcases h : lookupA s.freqLists ((s.node nid).freq) with _ | (_ | b) <;> simp [h]

theorem LfuCache.removeFromFreqList_nodeMap (s : LfuCache K V) (nid : Nat) :
    (s.removeFromFreqList nid).nodeMap = s.nodeMap := by
  unfold LfuCache.removeFromFreqList freqListsIndex
  rcases h : lookupA s.freqLists ((s.node nid).freq) with _ | (_ | b) <;> simp [h]

theorem LfuCache.removeFromFreqList_minFreq (s : LfuCache K V) (nid : Nat) :
    (s.removeFromFreqList nid).minFreq = s.minFreq := by
  unfold LfuCache.removeFromFreqList freqListsIndex
  rcases h : lookupA s.freqLists ((s.node nid).freq) with _ | (_ | b) <;> simp [h]

theorem LfuCache.removeFromFreqList_maxAverageNum (s : LfuCache K V) (nid : Nat) :
    (s.removeFromFreqList nid).maxAverageNum = s.maxAverageNum := by
  unfold LfuCache.removeFromFreqList freqListsIndex
  rcases h : lookupA s.freqLists ((s.node nid).freq) with _ | (_ | b) <;> simp [h]

theorem LfuCache.removeFromFreqList_curTotalNum (s : LfuCache K V) (nid : Nat) :
    (s.removeFromFreqList nid).curTotalNum = s.curTotalNum := by
  unfold LfuCache.removeFromFreqList freqListsIndex
  rcases h : lookupA s.freqLists ((s.node nid).freq) with _ | (_ | b) <;> simp [h]

theorem LfuCache.removeFromFreqList_nextId (s : LfuCache K V) (nid : Nat) :
    (s.removeFromFreqList nid).nextId = s.nextId := by
  unfold LfuCache.removeFromFreqList freqListsIndex
  rcases h : lookupA s.freqLists ((s.node nid).freq) with _ | (_ | b) <;> simp [h]

theorem LfuCache.removeFromFreqList_capacity (s : LfuCache K V) (nid : Nat) :
    (s.removeFromFreqList nid).capacity = s.capacity := by
  unfold LfuCache.removeFromFreqList freqListsIndex
  rcases h : lookupA s.freqLists ((s.node nid).freq) with _ | (_ | b) <;> simp [h]

theorem LfuCache.addToFreqList_nodes (s : LfuCache K V) (nid : Nat) :
    (s.addToFreqList nid).nodes = s.nodes := by
  unfold LfuCache.addToFreqList
  rcases h : lookupA s.freqLists ((s.node nid).freq) with _ | b <;>
    simp only [h] <;> split <;> simp

theorem LfuCache.addToFreqList_nodeMap (s : LfuCache K V) (nid : Nat) :
    (s.addToFreqList nid).nodeMap = s.nodeMap := by
  unfold LfuCache.addToFreqList
  rcases h : lookupA s.freqLists ((s.node nid).freq) with _ | b <;>
    simp only [h] <;> split <;> simp

theorem LfuCache.addToFreqList_minFreq (s : LfuCache K V) (nid : Nat) :
    (s.addToFreqList nid).minFreq = s.minFreq := by
  unfold LfuCache.addToFreqList
  rcases h : lookupA s.freqLists ((s.node nid).freq) with _ | b <;>
    simp only [h] <;> split <;> simp

theorem LfuCache.addToFreqList_maxAverageNum (s : LfuCache K V) (nid : Nat) :
    (s.addToFreqList nid).maxAverageNum = s.maxAverageNum := by
  unfold LfuCache.addToFreqList
  rcases h : lookupA s.freqLists ((s.node nid).freq) with _ | b <;>
    simp only [h] <;> split <;> simp

theorem LfuCache.addToFreqList_curTotalNum (s : LfuCache K V) (nid : Nat) :
    (s.addToFreqList nid).curTotalNum = s.curTotalNum := by
  unfold LfuCache.addToFreqList
  rcases h : lookupA s.freqLists ((s.node nid).freq) with _ | b <;>
    simp only [h] <;> split <;> simp

theorem LfuCache.addToFreqList_nextId (s : LfuCache K V) (nid : Nat) :
    (s.addToFreqList nid).nextId = s.nextId := by
  unfold LfuCache.addToFreqList
  rcases h : lookupA s.freqLists ((s.node nid).freq) with _ | b <;>
    simp only [h] <;> split <;> simp

theorem LfuCache.kickOut_minFreq (s : LfuCache K V) :
    (s.kickOut).minFreq = s.minFreq := by
  unfold LfuCache.kickOut LfuCache.decreaseFreqNum freqListsIndex
  rcases h : lookupA s.freqLists s.minFreq with _ | (_ | (_ | ⟨nid, rest⟩)) <;>
    simp [h, LfuCache.removeFromFreqList_minFreq]

theorem LfuCache.kickOut_nextId (s : LfuCache K V) :
    (s.kickOut).nextId = s.nextId := by
  unfold LfuCache.kickOut LfuCache.decreaseFreqNum freqListsIndex
  rcases h : lookupA s.freqLists s.minFreq with _ | (_ | (_ | ⟨nid, rest⟩)) <;>
    simp [h, LfuCache.removeFromFreqList_nextId]

theorem LfuCache.kickOut_maxAverageNum (s : LfuCache K V) :
    (s.kickOut).maxAverageNum = s.maxAverageNum := by
  unfold LfuCache.kickOut LfuCache.decreaseFreqNum freqListsIndex
  rcases h : lookupA s.freqLists s.minFreq with _ | (_ | (_ | ⟨nid, rest⟩)) <;>
    simp [h, LfuCache.removeFromFreqList_maxAverageNum]

theorem LfuCache.kickOut_curTotalNum_le (s : LfuCache K V) :
    (s.kickOut).curTotalNum ≤ s.curTotalNum := by
  unfold LfuCache.kickOut LfuCache.decreaseFreqNum freqListsIndex
  rcases h : lookupA s.freqLists s.minFreq with _ | (_ | (_ | ⟨nid, rest⟩)) <;>
    simp [h, LfuCache.removeFromFreqList_curTotalNum, LfuCache.removeFromFreqList_nodes] <;>
    omega

theorem LfuCache.decreaseFreqNum_freqLists (s : LfuCache K V) (n : Int) :
    (s.decreaseFreqNum n).freqLists = s.freqLists := rfl

theorem LfuCache.decreaseFreqNum_minFreq (s : LfuCache K V) (n : Int) :
    (s.decreaseFreqNum n).minFreq = s.minFreq := rfl

theorem LfuCache.decreaseFreqNum_nodeMap (s : LfuCache K V) (n : Int) :
    (s.decreaseFreqNum n).nodeMap = s.nodeMap := rfl

/-- Unlinking a node never turns a real bucket-1 list into anything else. -/
theorem LfuCache.removeFromFreqList_bucket1 (s : LfuCache K V) (nid : Nat)
    (b1 : List Nat) (h1 : lookupA s.freqLists 1 = some (some b1)) :
    ∃ b, lookupA (s.removeFromFreqList nid).freqLists 1 = some (some b) := by
  unfold LfuCache.removeFromFreqList freqListsIndex
  by_cases hf : (s.node nid).freq = 1
  · rw [hf]
    simp only [h1]
    exact ⟨b1.filter (fun x => x ≠ nid), by
      simpa using lookupA_upsertA_self s.freqLists 1 (some (b1.filter (fun x => x ≠ nid)))⟩
  · rcases hv : lookupA s.freqLists ((s.node nid).freq) with _ | (_ | bv)
    · simp only [hv]
      exact ⟨b1, lookupA_append_left s.freqLists [((s.node nid).freq, none)] 1 (some b1) h1⟩
    · simp only [hv]
      exact ⟨b1, h1⟩
    · simp only [hv]
      refine ⟨b1, ?_⟩
      rw [lookupA_upsertA_other s.freqLists ((s.node nid).freq) 1 _
        (fun he => hf he.symm)]
      exact h1

/-- `kickOut` never turns a real bucket-1 list into anything else. -/
theorem LfuCache.kickOut_bucket1 (s : LfuCache K V) (b1 : List Nat)
    (h1 : lookupA s.freqLists 1 = some (some b1)) :
    ∃ b, lookupA (s.kickOut).freqLists 1 = some (some b) := by
  unfold LfuCache.kickOut freqListsIndex
  rcases h : lookupA s.freqLists s.minFreq with _ | (_ | (_ | ⟨nid, rest⟩))
  · simp only [h]
    exact ⟨b1, lookupA_append_left s.freqLists [(s.minFreq, none)] 1 (some b1) h1⟩
  · simp only [h]
    exact ⟨b1, h1⟩
  · simp only [h, h1]
    exact ⟨b1, h1⟩
  · simp only [h, LfuCache.decreaseFreqNum_freqLists]
    exact LfuCache.removeFromFreqList_bucket1 _ nid b1 h1

theorem tdiv_le_of_le (t B n : Int) (hn : 0 < n) (hB : 0 ≤ B) (ht : t ≤ B) :
    Int.tdiv t n ≤ B := by
  rcases le_or_lt 0 t with h | h
  · have h2 : Int.tdiv t n ≤ t := by
      rw [Int.tdiv_eq_ediv h (le_of_lt hn)]
      exact Int.ediv_le_self n h
    omega
  · have h1 : 0 ≤ (-t).tdiv n := Int.tdiv_nonneg (by omega) (le_of_lt hn)
    have h2 := Int.neg_tdiv t n
    omega

theorem LfuCache.node_eq_of_nodes (s t : LfuCache K V) (h : s.nodes = t.nodes)
    (nid : Nat) : s.node nid = t.node nid := by
  unfold LfuCache.node
  rw [h]

/-- Writing a node and then reading it back. -/
theorem LfuCache.setNode_node_self (s : LfuCache K V) (nid : Nat) (n : LfuNode K V) :
    (s.setNode nid n).node nid = n := by
  unfold LfuCache.setNode LfuCache.node
  simp [lookupA_upsertA_self]

/-- Appending a node whose frequency bucket exists as a real list. -/
theorem LfuCache.addToFreqList_found (s : LfuCache K V) (nid : Nat) (b : List Nat)
    (hf : (s.node nid).freq = 1) (hb : lookupA s.freqLists 1 = some (some b)) :
    lookupA (s.addToFreqList nid).freqLists 1 = some (some (b ++ [nid])) := by
  unfold LfuCache.addToFreqList
  simp only [hf, hb]
  simpa using lookupA_upsertA_self s.freqLists 1 (some (b ++ [nid]))

/-- `addFreqNum` without an aging trigger only advances the counters. -/
theorem LfuCache.addFreqNum_no_trigger (s : LfuCache K V)
    (hne : s.nodeMap ≠ [])
    (h : Int.tdiv (s.curTotalNum + 1) (s.nodeMap.length : Int) ≤ (s.maxAverageNum : Int)) :
    s.addFreqNum = { s with
      curTotalNum := s.curTotalNum + 1
      curAverageNum := Int.tdiv (s.curTotalNum + 1) (s.nodeMap.length : Int) } := by
  unfold LfuCache.addFreqNum
  simp only [hne, if_false]
  rw [if_neg (not_lt.mpr h)]

theorem LfuCache.agingStep_node_self (s : LfuCache K V) (k : K) (nid : Nat) :
    (s.agingStep (k, nid)).node nid
      = { s.node nid with
          freq := if (s.node nid).freq - s.maxAverageNum / 2 < 1 then 1
                  else (s.node nid).freq - s.maxAverageNum / 2 } := by
  unfold LfuCache.agingStep
  simp only []
  rw [LfuCache.node_eq_of_nodes _ _ (LfuCache.addToFreqList_nodes _ _) nid,
    LfuCache.setNode_node_self,
    LfuCache.node_eq_of_nodes _ s (LfuCache.removeFromFreqList_nodes s nid) nid,
    LfuCache.removeFromFreqList_maxAverageNum]

theorem LfuCache.addToFreqList_mem (s : LfuCache K V) (nid : Nat)
    (h : lookupA s.freqLists ((s.node nid).freq) ≠ some none) :
    nid ∈ (s.addToFreqList nid).bucket ((s.node nid).freq) := by
  unfold LfuCache.addToFreqList LfuCache.bucket
  rcases hv : lookupA s.freqLists ((s.node nid).freq) with _ | (_ | lst)
  · simp only [hv]
    have h1 : lookupA (upsertA s.freqLists ((s.node nid).freq) (some []))
        ((s.node nid).freq) = some (some []) := lookupA_upsertA_self _ _ _
    simp only [h1]
    have h2 : lookupA (upsertA (upsertA s.freqLists ((s.node nid).freq) (some []))
        ((s.node nid).freq) (some ([] ++ [nid]))) ((s.node nid).freq)
        = some (some ([] ++ [nid])) := lookupA_upsertA_self _ _ _
    simp only [h2]
    simp
  · exact absurd hv h
  · simp only [hv]
    have h2 : lookupA (upsertA s.freqLists ((s.node nid).freq) (some (lst ++ [nid])))
        ((s.node nid).freq) = some (some (lst ++ [nid])) := lookupA_upsertA_self _ _ _
    simp only [h2]
    simp

theorem LfuCache.agingStep_mem (s : LfuCache K V) (k : K) (nid : Nat)
    (h : lookupA (s.removeFromFreqList nid).freqLists
        (if (s.node nid).freq - s.maxAverageNum / 2 < 1 then 1
         else (s.node nid).freq - s.maxAverageNum / 2) ≠ some none) :
    nid ∈ (s.agingStep (k, nid)).bucket
      (if (s.node nid).freq - s.maxAverageNum / 2 < 1 then 1
       else (s.node nid).freq - s.maxAverageNum / 2) := by
  unfold LfuCache.agingStep
  simp only []
  set s1 := s.removeFromFreqList nid with hs1
  have hf1 : (s1.node nid).freq = (s.node nid).freq := by
    rw [LfuCache.node_eq_of_nodes s1 s (LfuCache.removeFromFreqList_nodes s nid) nid]
  have hm1 : s1.maxAverageNum = s.maxAverageNum :=
    LfuCache.removeFromFreqList_maxAverageNum s nid
  set nf := if (s.node nid).freq - s.maxAverageNum / 2 < 1 then 1
            else (s.node nid).freq - s.maxAverageNum / 2 with hnf
  have hnfeq : (if (s1.node nid).freq - s1.maxAverageNum / 2 < 1 then 1
      else (s1.node nid).freq - s1.maxAverageNum / 2) = nf := by
    rw [hf1, hm1]
  rw [hnfeq]
  set s2 := s1.setNode nid { s1.node nid with freq := nf } with hs2
  have h2f : (s2.node nid).freq = nf := by
    rw [hs2, LfuCache.setNode_node_self]
  have h2fl : s2.freqLists = s1.freqLists := rfl
  have := LfuCache.addToFreqList_mem s2 nid (by rw [h2f, h2fl]; exact h)
  rw [h2f] at this
  exact this

theorem updateMinFreqStep_foldl (fl : List (Nat × Option (List Nat))) :
    ∀ acc : Nat, fl.foldl updateMinFreqStep acc = (liveFreqsOf fl).foldl min acc := by
  induction fl with
  | nil => intro acc; rfl
  | cons p t ih =>
      intro acc
      rcases p with ⟨f, _ | b⟩
      · simp only [liveFreqsOf, List.filterMap_cons]
        simp only [List.foldl_cons, updateMinFreqStep]
        exact ih acc
      · by_cases hb : b = []
        · subst hb
          simp only [liveFreqsOf, List.filterMap_cons, List.foldl_cons, updateMinFreqStep]
          simp only [ne_eq, not_true_eq_false, if_false, reduceIte]
          exact ih acc
        · simp only [liveFreqsOf, List.filterMap_cons, List.foldl_cons, updateMinFreqStep]
          simp only [ne_eq, hb, not_false_eq_true, if_true, reduceIte]
          exact ih (min acc f)

theorem foldl_min_le_init (l : List Nat) : ∀ a : Nat, l.foldl min a ≤ a := by
  induction l with
  | nil => intro a; simp
  | cons x t ih =>
      intro a
      exact le_trans (ih (min a x)) (min_le_left a x)

theorem foldl_min_le_mem (l : List Nat) : ∀ (a g : Nat), g ∈ l → l.foldl min a ≤ g := by
  induction l with
  | nil => intro a g h; cases h
  | cons x t ih =>
      intro a g h
      rcases List.mem_cons.mp h with rfl | h2
      · exact le_trans (foldl_min_le_init t (min a g)) (min_le_right a g)
      · exact ih (min a x) g h2

theorem le_foldl_min (l : List Nat) :
    ∀ (a c : Nat), c ≤ a → (∀ x ∈ l, c ≤ x) → c ≤ l.foldl min a := by
  induction l with
  | nil => intro a c h _; simpa using h
  | cons x t ih =>
      intro a c ha hall
      exact ih (min a x) c (le_min ha (hall x (List.mem_cons_self x t)))
        (fun y hy => hall y (List.mem_cons_of_mem x hy))

theorem LfuCache.updateMinFreq_all_big (s : LfuCache K V)
    (hall : ∀ g2 ∈ s.liveFreqs, INT8MAX ≤ g2) : (s.updateMinFreq).minFreq = 1 := by
  unfold LfuCache.updateMinFreq
  simp only [updateMinFreqStep_foldl]
  have h1 : (liveFreqsOf s.freqLists).foldl min INT8MAX ≤ INT8MAX :=
    foldl_min_le_init _ _
  have h2 : INT8MAX ≤ (liveFreqsOf s.freqLists).foldl min INT8MAX :=
    le_foldl_min _ _ _ (le_refl _) hall
  have h3 : (liveFreqsOf s.freqLists).foldl min INT8MAX = INT8MAX := le_antisymm h1 h2
  simp [h3]

theorem LfuCache.updateMinFreq_true_min (s : LfuCache K V) (g : Nat)
    (hmem : g ∈ s.liveFreqs) (hmin : ∀ g2 ∈ s.liveFreqs, g ≤ g2) (hlt : g < INT8MAX) :
    (s.updateMinFreq).minFreq = g := by
  unfold LfuCache.updateMinFreq
  simp only [updateMinFreqStep_foldl]
  have h1 : (liveFreqsOf s.freqLists).foldl min INT8MAX ≤ g :=
    foldl_min_le_mem _ _ _ hmem
  have h2 : g ≤ (liveFreqsOf s.freqLists).foldl min INT8MAX :=
    le_foldl_min _ _ _ (le_of_lt hlt) hmin
  have h3 : (liveFreqsOf s.freqLists).foldl min INT8MAX = g := le_antisymm h1 h2
  have h4 : (liveFreqsOf s.freqLists).foldl min INT8MAX ≠ INT8MAX := by omega
  rw [if_neg h4]
  exact h3

theorem lfuChk_start : (LfuCache.init 1 1).put 5 0 = lfuChk 0 := by decide

theorem lfuChk_seg1 : (lfuDoGet 5)^[32] (lfuChk 0) = lfuChk 32 := by decide

theorem lfuChk_seg2 : (lfuDoGet 5)^[32] (lfuChk 32) = lfuChk 64 := by decide

theorem lfuChk_seg3 : (lfuDoGet 5)^[32] (lfuChk 64) = lfuChk 96 := by decide

theorem lfuChk_seg4 : (lfuDoGet 5)^[30] (lfuChk 96) = lfuAged := by decide

/-- The 127-operation sequence `put(5,0); 126 × get(5)` reaches `lfuAged`. -/
theorem lfuAged_eq :
    (lfuDoGet 5)^[126] ((LfuCache.init 1 1).put 5 0) = lfuAged := by
  rw [lfuChk_start, show (126 : Nat) = 30 + (32 + (32 + 32)) from rfl,
    Function.iterate_add_apply, Function.iterate_add_apply, Function.iterate_add_apply,
    lfuChk_seg1, lfuChk_seg2, lfuChk_seg3, lfuChk_seg4]

theorem ArcLfuPart.decreaseCapacity_fst (s : ArcLfuPart K V) :
    (s.decreaseCapacity).1 = true := by
  unfold ArcLfuPart.decreaseCapacity
  by_cases h : s.capacity = 0 <;> simp [h]

theorem ArcLruPart.evictLeastRecent_frame (s : ArcLruPart K V) :
    (s.evictLeastRecent).capacity = s.capacity ∧
    (s.evictLeastRecent).nextId = s.nextId := by
  unfold ArcLruPart.evictLeastRecent ArcLruPart.addToGhost
    ArcLruPart.removeOldestGhost ArcLruPart.setNode
  split
  · exact ⟨rfl, rfl⟩
  · simp only [ge_iff_le]
    split
    · split
      · exact ⟨rfl, rfl⟩
      · exact ⟨rfl, rfl⟩
    · exact ⟨rfl, rfl⟩

/-- `ArcLruPart::put` on a part with nonzero capacity always leaves the key
in the main cache with the written value. -/
theorem ArcLruPart.put_writes (s : ArcLruPart K V) (k : K) (v : V)
    (h : s.capacity ≠ 0) :
    ∃ nid, lookupA ((s.put k v).2).mainCache k = some nid ∧
      (((s.put k v).2).node nid).value = v := by
  unfold ArcLruPart.put
  rcases hlook : lookupA s.mainCache k with _ | nid
  · simp only [h, if_false, hlook]
    unfold ArcLruPart.addNewNode ArcLruPart.setNode
    refine ⟨(if s.mainCache.length ≥ s.capacity then s.evictLeastRecent else s).nextId,
      ?_, ?_⟩
    · simp [lookupA_upsertA_self]
    · simp [ArcLruPart.node, lookupA_upsertA_self]
  · simp only [h, if_false, hlook]
    refine ⟨nid, hlook, ?_⟩
    simp [ArcLruPart.node, ArcLruPart.setNode, lookupA_upsertA_self]

/-- `ArcLfuPart::put` on a resident key (nonzero capacity) keeps the map
entry, writes the value, and increments the node's frequency counter. -/
theorem ArcLfuPart.put_existing (s : ArcLfuPart K V) (k : K) (v : V) (nid : Nat)
    (h : s.capacity ≠ 0) (hlook : lookupA s.mainCache k = some nid) :
    lookupA ((s.put k v).2).mainCache k = some nid ∧
    (((s.put k v).2).node nid).value = v ∧
    (((s.put k v).2).node nid).accessCount = (s.node nid).accessCount + 1 := by
  unfold ArcLfuPart.put
  simp only [h, if_false, hlook]
  unfold ArcLfuPart.updateNodeFrequency ArcLfuPart.setNode
  refine ⟨hlook, ?_, ?_⟩ <;>
    simp [ArcLfuPart.node, lookupA_upsertA_self]

/-! ## Claim theorems and witnesses -/

/-- C1: FALSIFIED BY THE CODE.  The spec's hard invariant `size ≤ capacity`
is violated by `LfuCache`: on an `LfuCache<K,V>(capacity 1, maxAverageNum 1)`,
after `put(5,0)` and 126 × `get(5)` the aging pass's `updateMinFreq` starts
its scan at `INT8_MAX` (127, where the constructor uses `INT_MAX`), finds no
bucket below 127 and resets `minFreq_` to 1 — an empty bucket.  The next
`put(7,0)` then calls `kickOut`, whose `getFirstNode` on the empty bucket
returns the dummy tail sentinel; the map erase targets the sentinel's
default-constructed key (for `Key = std::string`, the empty string; keys 5
and 7 stand for distinct non-default keys), removes nothing, and the insert
drives the resident count to 2 > capacity 1 — permanently, since later puts
compare size with `==`. -/
theorem lfu_size_exceeds_capacity :
    lfuSeqC1.capacity = 1 ∧ lfuSeqC1.nodeMap.length = 2 ∧
    lfuSeqC1.capacity < lfuSeqC1.nodeMap.length := by
  have h : lfuSeqC1 = lfuAged.put 7 0 := by
    show ((lfuDoGet 5)^[126] ((LfuCache.init 1 1).put 5 0)).put 7 0 = _
    rw [lfuAged_eq]
  rw [h]
  refine ⟨by decide, by decide, by decide⟩

/-- C2: FALSIFIED BY THE CODE.  `ArcLfuPart::decreaseCapacity` returns
`true` when its capacity is already 0 (its `ArcLruPart` counterpart returns
`false` there), so a hit on the LRU-partition ghost list still grows the LRU
partition when the LFU partition has nothing to give: after the first five
operations the capacities are (LRU 2, LFU 0); the final `get(2)` hits the
LRU ghost list and moves them to (LRU 3, LFU 0) — growth without a matching
shrink, and the capacity sum drifts from 2 to 3. -/
theorem arc_ghost_hit_grows_lru_without_shrink :
    (runArc (ArcCache.init 1 1) (arcSeqC2.take 5)).lruPart.capacity = 2 ∧
    (runArc (ArcCache.init 1 1) (arcSeqC2.take 5)).lfuPart.capacity = 0 ∧
    (runArc (ArcCache.init 1 1) arcSeqC2).lruPart.capacity = 3 ∧
    (runArc (ArcCache.init 1 1) arcSeqC2).lfuPart.capacity = 0 := by
  refine ⟨by decide, by decide, by decide, by decide⟩

/-- C3: FALSIFIED BY THE CODE.  `insertNode` writes `dummyHead_->prev_`
instead of `dummyTail_->prev_`, so `dummyTail_->prev_` stays `dummyHead_`
forever, every inserted node gets `prev_ = dummyHead_`/`next_ = dummyTail_`,
and `dummyHead_->next_` always points at the most recently touched node.
`evictLeastRecent` therefore removes the most recently inserted entry: the
third put evicts key 2 (not key 1), so `get(1)` hits and returns "a",
`get(2)` misses, and `get(3)` hits and returns "c". -/
theorem lru_put_sequence_evicts_key2 :
    lruSeqC3.nodeMap = [(1, 3), (3, 5)] ∧
    (lruSeqC3.get 1 "").1 = true ∧ (lruSeqC3.get 1 "").2.1 = "a" ∧
    (lruSeqC3.get 2 "").1 = false ∧
    (lruSeqC3.get 3 "").1 = true ∧ (lruSeqC3.get 3 "").2.1 = "c" := by
  refine ⟨by decide, by decide, by decide, by decide, by decide, by decide⟩

/-- C4: FALSIFIED BY THE CODE.  `HashLfuCache::put` forwards to the shard's
`get` rather than `put` (`return lfuSliceCaches_[sliceIndex]->get(key,
value);`), so a `put` on a fresh `HashLfuCache(capacity 4, sliceNum 2)`
stores nothing whatsoever — the state is unchanged for every hash function,
key and value — and the subsequent shard-routed `get` misses. -/
theorem hashlfu_put_stores_nothing (hash : Nat → Nat) (k : Nat) (v : Nat) :
    HashLfuCache.put hash (HashLfuCache.init 4 2 10) k v = HashLfuCache.init 4 2 10 ∧
    (HashLfuCache.get hash (HashLfuCache.put hash (HashLfuCache.init 4 2 10) k v) k).1
      = false := by
  have hmod : hash k % 2 = 0 ∨ hash k % 2 = 1 := Nat.mod_two_eq_zero_or_one (hash k)
  constructor
  · rcases hmod with h | h <;>
      simp [HashLfuCache.put, HashLfuCache.init, h, LfuCache.get, LfuCache.init, lookupA]
  · rcases hmod with h | h <;>
      simp [HashLfuCache.put, HashLfuCache.get, HashLfuCache.init, h,
        LfuCache.get, LfuCache.init, lookupA]

/-- C5: FALSIFIED BY THE CODE.  The final `put(10, "g")` finds key 10 in the
LFU partition's ghost list, and the resulting `lruPart_->decreaseCapacity()`
evicts key 10 out of the full LRU main cache into the LRU ghost list; the
put then re-inserts key 10 into the LRU main cache without touching that
ghost entry, leaving key 10 simultaneously in the LRU partition's main cache
and in the same partition's own ghost cache. -/
theorem arc_key_in_main_and_own_ghost :
    (lookupA (runArc (ArcCache.init 2 1) arcSeqC5).lruPart.mainCache 10).isSome = true ∧
    (lookupA (runArc (ArcCache.init 2 1) arcSeqC5).lruPart.ghostCache 10).isSome = true := by
  refine ⟨by decide, by decide⟩

/-- C6 counterexample: in the reachable state `arcC6pre` the LRU partition's
capacity is 0; key 7 is in neither ghost list and not LFU-resident, so the
claim routes `put(7,"x")` into the LRU partition — but `ArcLruPart::put`
returns `false` immediately at capacity 0 and the key is written nowhere. -/
theorem arc_put_capacity_zero_writes_nowhere :
    arcC6pre.lruPart.capacity = 0 ∧
    lookupA arcC6pre.lruPart.ghostCache 7 = none ∧
    lookupA arcC6pre.lfuPart.ghostCache 7 = none ∧
    lookupA arcC6pre.lfuPart.mainCache 7 = none ∧
    lookupA (arcC6pre.put 7 "x").lruPart.mainCache 7 = none ∧
    lookupA (arcC6pre.put 7 "x").lfuPart.mainCache 7 = none := by
  refine ⟨by decide, by decide, by decide, by decide, by decide, by decide⟩

/-- C6 as amended: `ArcCache::put` routes exactly as the claim says —
ghost-missing LFU-resident keys update the LFU partition in place with a
frequency increment (the LRU partition stays untouched), other ghost-missing
keys go to the LRU partition (the LFU partition stays untouched), and
ghost-found keys always go to the LRU partition — with one proviso the
capacity-0 counterexample forces: a put routed to the LRU partition is
dropped, leaving the whole cache unchanged, when that partition's capacity
is 0 at the moment of the write (on an LRU-partition ghost hit the preceding
transfer has just raised the LRU capacity above 0, so the write always
lands; on an LFU-partition ghost hit the transfer lowers it, so LRU capacity
at least 2 is needed). -/
theorem arc_put_routing_amended (s : ArcCache K V) (k : K) (v : V) :
    (lookupA s.lruPart.ghostCache k = none → lookupA s.lfuPart.ghostCache k = none →
      ∀ nid, lookupA s.lfuPart.mainCache k = some nid → s.lfuPart.capacity ≠ 0 →
        (s.put k v).lruPart = s.lruPart ∧
        lookupA (s.put k v).lfuPart.mainCache k = some nid ∧
        ((s.put k v).lfuPart.node nid).value = v ∧
        ((s.put k v).lfuPart.node nid).accessCount
          = (s.lfuPart.node nid).accessCount + 1) ∧
    (lookupA s.lruPart.ghostCache k = none → lookupA s.lfuPart.ghostCache k = none →
      lookupA s.lfuPart.mainCache k = none → s.lruPart.capacity ≠ 0 →
        (s.put k v).lfuPart = s.lfuPart ∧ writtenInLruMain (s.put k v) k v) ∧
    (lookupA s.lruPart.ghostCache k = none → lookupA s.lfuPart.ghostCache k = none →
      lookupA s.lfuPart.mainCache k = none → s.lruPart.capacity = 0 →
        s.put k v = s) ∧
    (∀ gid, lookupA s.lruPart.ghostCache k = some gid →
      writtenInLruMain (s.put k v) k v) ∧
    (∀ gid, lookupA s.lruPart.ghostCache k = none →
      lookupA s.lfuPart.ghostCache k = some gid → 2 ≤ s.lruPart.capacity →
        writtenInLruMain (s.put k v) k v) := by
  refine ⟨?_, ?_, ?_, ?_, ?_⟩
  · intro hlg hfg nid hm hcap
    have hput : s.put k v =
        { s with lfuPart := (s.lfuPart.put k v).2 } := by
      unfold ArcCache.put ArcCache.checkGhostCaches
      simp [ArcLruPart.checkGhost, ArcLfuPart.checkGhost, hlg, hfg,
        ArcLfuPart.inLfuMainCache, hm]
    obtain ⟨h1, h2, h3⟩ := ArcLfuPart.put_existing s.lfuPart k v nid hcap hm
    rw [hput]
    exact ⟨rfl, h1, h2, h3⟩
  · intro hlg hfg hm hcap
    have hput : s.put k v =
        { s with lruPart := (s.lruPart.put k v).2 } := by
      unfold ArcCache.put ArcCache.checkGhostCaches
      simp [ArcLruPart.checkGhost, ArcLfuPart.checkGhost, hlg, hfg,
        ArcLfuPart.inLfuMainCache, hm]
    rw [hput]
    exact ⟨rfl, ArcLruPart.put_writes s.lruPart k v hcap⟩
  · intro hlg hfg hm hcap
    unfold ArcCache.put ArcCache.checkGhostCaches
    simp [ArcLruPart.checkGhost, ArcLfuPart.checkGhost, hlg, hfg,
      ArcLfuPart.inLfuMainCache, hm, ArcLruPart.put, hcap]
  · intro gid hlg
    have hput : s.put k v =
        { s with
          lruPart := ((((s.lruPart.checkGhost k).2).increaseCapacity).put k v).2
          lfuPart := (s.lfuPart.decreaseCapacity).2 } := by
      unfold ArcCache.put ArcCache.checkGhostCaches
      simp [ArcLruPart.checkGhost, hlg, ArcLfuPart.decreaseCapacity_fst]
    rw [hput]
    obtain ⟨nid, h1, h2⟩ :=
      ArcLruPart.put_writes (((s.lruPart.checkGhost k).2).increaseCapacity) k v
        (by simp [ArcLruPart.increaseCapacity])
    exact ⟨nid, h1, h2⟩
  · intro gid hlg hfg hcap
    have hok : ¬ s.lruPart.capacity = 0 := by omega
    have hput : s.put k v =
        { s with
          lruPart := (((s.lruPart.decreaseCapacity).2).put k v).2
          lfuPart := (((s.lfuPart.checkGhost k).2).increaseCapacity) } := by
      unfold ArcCache.put ArcCache.checkGhostCaches
      simp [ArcLruPart.checkGhost, ArcLfuPart.checkGhost, hlg, hfg,
        ArcLruPart.decreaseCapacity, hok]
    rw [hput]
    have hcap2 : ((s.lruPart.decreaseCapacity).2).capacity ≠ 0 := by
      unfold ArcLruPart.decreaseCapacity
      simp only [hok, if_false]
      by_cases hful : s.lruPart.mainCache.length = s.lruPart.capacity
      · simp only [hful, if_true]
        have := (ArcLruPart.evictLeastRecent_frame s.lruPart).1
        omega
      · simp only [hful, if_false]
        omega
    obtain ⟨nid, h1, h2⟩ :=
      ArcLruPart.put_writes ((s.lruPart.decreaseCapacity).2) k v hcap2
    exact ⟨nid, h1, h2⟩

/-- Closed witness for `arc_put_routing_amended`: all five branches
instantiated at concrete reachable states, every hypothesis discharged by
evaluation. -/
theorem arc_put_routing_amended_witness :
    ((arcWitA.put 1 "z").lruPart = arcWitA.lruPart ∧
      lookupA (arcWitA.put 1 "z").lfuPart.mainCache 1 = some 0 ∧
      ((arcWitA.put 1 "z").lfuPart.node 0).value = "z" ∧
      ((arcWitA.put 1 "z").lfuPart.node 0).accessCount
        = (arcWitA.lfuPart.node 0).accessCount + 1) ∧
    (((ArcCache.init 2 3 : ArcCache Nat String).put 4 "w").lfuPart
        = (ArcCache.init 2 3 : ArcCache Nat String).lfuPart ∧
      writtenInLruMain ((ArcCache.init 2 3 : ArcCache Nat String).put 4 "w") 4 "w") ∧
    arcC6pre.put 7 "x" = arcC6pre ∧
    writtenInLruMain (arcSeqC10.put 1 "y") 1 "y" ∧
    writtenInLruMain (arcWitD.put 10 "g") 10 "g" := by
  refine ⟨?_, ?_, ?_, ?_, ?_⟩
  · exact (arc_put_routing_amended arcWitA 1 "z").1 (by decide) (by decide) 0
      (by decide) (by decide)
  · exact (arc_put_routing_amended (ArcCache.init 2 3) 4 "w").2.1 (by decide)
      (by decide) (by decide) (by decide)
  · exact (arc_put_routing_amended arcC6pre 7 "x").2.2.1 (by decide) (by decide)
      (by decide) (by decide)
  · exact (arc_put_routing_amended arcSeqC10 1 "y").2.2.2.1 0 (by decide)
  · exact (arc_put_routing_amended arcWitD 10 "g").2.2.2.2 0 (by decide) (by decide)
      (by decide)

/-- C7 counterexample: after `put(5,0)` and 126 × `get(5)` on
`LfuCache(capacity 1, maxAverageNum 1)`, the access that pushes the running
average over `maxAverageNum` ages the cache; the pass leaves the single
resident node at frequency 127 (the reduction is `maxAverageNum/2 = 0`,
consistent with the spec), yet `updateMinFreq` — whose scan starts at
`INT8_MAX = 127` and resets to 1 whenever the fold never drops below it —
sets `minFreq` to 1, the frequency of an empty bucket, instead of the true
minimum 127. -/
theorem lfu_aging_minfreq_not_true_min :
    ((lfuDoGet 5)^[126] ((LfuCache.init 1 1).put 5 0)).minFreq = 1 ∧
    (((lfuDoGet 5)^[126] ((LfuCache.init 1 1).put 5 0)).node 0).freq = 127 ∧
    lookupA ((lfuDoGet 5)^[126] ((LfuCache.init 1 1).put 5 0)).freqLists 127
      = some (some [0]) ∧
    lookupA ((lfuDoGet 5)^[126] ((LfuCache.init 1 1).put 5 0)).freqLists 1
      = some (some []) ∧
    ((lfuDoGet 5)^[126] ((LfuCache.init 1 1).put 5 0)).nodeMap = [(5, 0)] := by
  rw [lfuAged_eq]
  refine ⟨by decide, by decide, by decide, by decide, by decide⟩

/-- C7 as amended: the aging pass (`handleOverMaxAverageNum` on a non-empty
map) folds `agingStep` over every map entry and then recomputes `minFreq`;
one `agingStep` reduces the entry's frequency by exactly `maxAverageNum/2`
floored at 1 and re-buckets the node into the bucket of its new frequency
(when that bucket's `FreqList*` is not null); and the recomputation yields
the true minimum over non-empty buckets ONLY when that minimum is below
`INT8_MAX = 127` — when every live frequency is at least 127 it yields 1
instead, not the true minimum as claimed. -/
theorem lfu_aging_amended (s : LfuCache K V) (k : K) (nid : Nat) (g : Nat) :
    (s.nodeMap ≠ [] →
      s.handleOverMaxAverageNum = (s.nodeMap.foldl LfuCache.agingStep s).updateMinFreq) ∧
    ((s.agingStep (k, nid)).node nid).freq
      = (if (s.node nid).freq - s.maxAverageNum / 2 < 1 then 1
         else (s.node nid).freq - s.maxAverageNum / 2) ∧
    (lookupA (s.removeFromFreqList nid).freqLists
        (if (s.node nid).freq - s.maxAverageNum / 2 < 1 then 1
         else (s.node nid).freq - s.maxAverageNum / 2) ≠ some none →
      nid ∈ (s.agingStep (k, nid)).bucket
        (if (s.node nid).freq - s.maxAverageNum / 2 < 1 then 1
         else (s.node nid).freq - s.maxAverageNum / 2)) ∧
    (g ∈ s.liveFreqs → (∀ g2 ∈ s.liveFreqs, g ≤ g2) → g < INT8MAX →
      (s.updateMinFreq).minFreq = g) ∧
    ((∀ g2 ∈ s.liveFreqs, INT8MAX ≤ g2) → (s.updateMinFreq).minFreq = 1) := by
  refine ⟨?_, ?_, ?_, ?_, ?_⟩
  · intro h
    unfold LfuCache.handleOverMaxAverageNum
    rw [if_neg h]
  · rw [LfuCache.agingStep_node_self]
  · exact LfuCache.agingStep_mem s k nid
  · exact LfuCache.updateMinFreq_true_min s g
  · exact LfuCache.updateMinFreq_all_big s

/-- Closed witness for `lfu_aging_amended`: the concrete state `lfuWitC7`
(frequencies 3 and 12, `maxAverageNum` 8) exercises the pass equation, the
frequency clamp 3 - 4 ↦ 1, the re-bucketing, and the true-min branch; the
one-resident state `lfuWitC7b` (frequency 200 ≥ 127) exercises the reset-to-1
branch. -/
theorem lfu_aging_amended_witness :
    lfuWitC7.handleOverMaxAverageNum
      = (lfuWitC7.nodeMap.foldl LfuCache.agingStep lfuWitC7).updateMinFreq ∧
    ((lfuWitC7.agingStep (5, 1)).node 1).freq = 1 ∧
    1 ∈ (lfuWitC7.agingStep (5, 1)).bucket 1 ∧
    (lfuWitC7.updateMinFreq).minFreq = 3 ∧
    (lfuWitC7b.updateMinFreq).minFreq = 1 := by
  have h := lfu_aging_amended lfuWitC7 5 1 3
  have h2 := lfu_aging_amended lfuWitC7b (5 : Nat) 1 3
  refine ⟨h.1 (by decide), ?_, ?_, ?_, ?_⟩
  · exact h.2.1.trans (by decide)
  · have hm := h.2.2.1 (by decide)
    have he : (if (lfuWitC7.node 1).freq - lfuWitC7.maxAverageNum / 2 < 1 then 1
        else (lfuWitC7.node 1).freq - lfuWitC7.maxAverageNum / 2) = 1 := by decide
    rw [he] at hm
    exact hm
  · exact h.2.2.2.1 (by decide) (by decide) (by decide)
  · exact h2.2.2.2.2 (by decide)

/-- C8 counterexample: `kickOut` on a cache whose only entry sits alone in
the `minFreq = 3` bucket removes that entry (the head of the minimum
bucket), but performs no recomputation whatsoever of `minFreq`: the cache is
left empty with `minFreq` still 3, pointing at the now-empty bucket — neither
rescanned to a non-empty bucket nor reset to the `INT_MAX` sentinel. -/
theorem lfu_kickout_leaves_stale_minfreq :
    lfuSeqC8.minFreq = 3 ∧
    lfuSeqC8.kickOut.nodeMap = [] ∧
    lfuSeqC8.kickOut.minFreq = 3 ∧
    lookupA lfuSeqC8.kickOut.freqLists 3 = some (some []) := by
  refine ⟨by decide, by decide, by decide, by decide⟩

/-- C8 as amended: when the `minFreq` bucket is a real, non-empty chain,
`kickOut` removes exactly that chain's head entry from the key map and does
NOT recompute `minFreq` (the claim's rescan never happens — `minFreq` is
left unchanged even when the bucket became empty); the stale value is only
patched over on the next miss-insert, whose `put` ends with
`minFreq_ = min(minFreq_, 1) = 1`, registers the new key, and appends the
new node to the frequency-1 bucket. -/
theorem lfu_eviction_amended (s : LfuCache K V) (k : K) (v : V) (b1 : List Nat) :
    (∀ nid rest, lookupA s.freqLists s.minFreq = some (some (nid :: rest)) →
      (s.kickOut).nodeMap = eraseA s.nodeMap ((s.node nid).key) ∧
      (s.kickOut).minFreq = s.minFreq) ∧
    (lookupA s.nodeMap k = none → s.capacity ≠ 0 → 0 < s.minFreq →
      lookupA s.freqLists 1 = some (some b1) →
      s.curTotalNum + 1 ≤ (s.maxAverageNum : Int) →
      (s.put k v).minFreq = 1 ∧
      lookupA (s.put k v).nodeMap k = some s.nextId ∧
      s.nextId ∈ (s.put k v).bucket 1) := by
  constructor
  · intro nid rest hb
    unfold LfuCache.kickOut freqListsIndex
    simp only [hb]
    constructor
    · simp only [LfuCache.decreaseFreqNum_nodeMap]
      have hnodes : ((({s with freqLists := s.freqLists} : LfuCache K V).removeFromFreqList
          nid)).nodes = s.nodes := LfuCache.removeFromFreqList_nodes _ nid
      simp [LfuCache.removeFromFreqList_nodeMap, LfuCache.node, hnodes]
    · simp [LfuCache.decreaseFreqNum_minFreq, LfuCache.removeFromFreqList_minFreq]
  · intro hk hc hm hb1 hbig
    have hput : s.put k v = s.putInternal k v := by
      unfold LfuCache.put
      rw [if_neg hc]
      simp only [hk]
    rw [hput]
    unfold LfuCache.putInternal
    simp only []
    set s1 := if s.nodeMap.length = s.capacity then s.kickOut else s with hs1
    have h1next : s1.nextId = s.nextId := by
      rw [hs1]; split
      · exact LfuCache.kickOut_nextId s
      · rfl
    have h1min : s1.minFreq = s.minFreq := by
      rw [hs1]; split
      · exact LfuCache.kickOut_minFreq s
      · rfl
    have h1max : s1.maxAverageNum = s.maxAverageNum := by
      rw [hs1]; split
      · exact LfuCache.kickOut_maxAverageNum s
      · rfl
    have h1tot : s1.curTotalNum ≤ s.curTotalNum := by
      rw [hs1]; split
      · exact LfuCache.kickOut_curTotalNum_le s
      · exact le_refl _
    have h1b : ∃ b, lookupA s1.freqLists 1 = some (some b) := by
      rw [hs1]; split
      · exact LfuCache.kickOut_bucket1 s b1 hb1
      · exact ⟨b1, hb1⟩
    obtain ⟨b, hb⟩ := h1b
    set s2 : LfuCache K V :=
      { s1.setNode s1.nextId { key := k, value := v, freq := 1 } with
        nextId := s1.nextId + 1
        nodeMap := upsertA s1.nodeMap k s1.nextId } with hs2
    have h2node : s2.node s1.nextId = { key := k, value := v, freq := 1 } := by
      have : s2.node s1.nextId
          = (s1.setNode s1.nextId { key := k, value := v, freq := 1 }).node s1.nextId :=
        LfuCache.node_eq_of_nodes _ _ rfl _
      rw [this, LfuCache.setNode_node_self]
    have h2fl : s2.freqLists = s1.freqLists := rfl
    have h3 : lookupA (s2.addToFreqList s1.nextId).freqLists 1
        = some (some (b ++ [s1.nextId])) := by
      refine LfuCache.addToFreqList_found s2 s1.nextId b ?_ ?_
      · rw [h2node]
      · rw [h2fl]; exact hb
    have h3map : (s2.addToFreqList s1.nextId).nodeMap = upsertA s1.nodeMap k s1.nextId :=
      LfuCache.addToFreqList_nodeMap s2 s1.nextId
    have h3min : (s2.addToFreqList s1.nextId).minFreq = s1.minFreq :=
      LfuCache.addToFreqList_minFreq s2 s1.nextId
    have h3tot : (s2.addToFreqList s1.nextId).curTotalNum = s1.curTotalNum :=
      LfuCache.addToFreqList_curTotalNum s2 s1.nextId
    have h3max : (s2.addToFreqList s1.nextId).maxAverageNum = s1.maxAverageNum :=
      LfuCache.addToFreqList_maxAverageNum s2 s1.nextId
    have h3ne : (s2.addToFreqList s1.nextId).nodeMap ≠ [] := by
      rw [h3map]; exact upsertA_ne_nil _ _ _
    have hlen : 0 < ((s2.addToFreqList s1.nextId).nodeMap.length : Int) := by
      rcases hmap : (s2.addToFreqList s1.nextId).nodeMap with _ | ⟨p, t⟩
      · exact absurd hmap h3ne
      · simp
    have harith : Int.tdiv ((s2.addToFreqList s1.nextId).curTotalNum + 1)
        ((s2.addToFreqList s1.nextId).nodeMap.length : Int)
        ≤ ((s2.addToFreqList s1.nextId).maxAverageNum : Int) := by
      rw [h3tot, h3max, h1max]
      refine tdiv_le_of_le _ _ _ hlen ?_ ?_
      · exact Int.ofNat_nonneg _
      · omega
    rw [LfuCache.addFreqNum_no_trigger _ h3ne harith]
    refine ⟨?_, ?_, ?_⟩
    · simp only [h3min, h1min]
      exact min_eq_right hm
    · simp only [h3map]
      rw [lookupA_upsertA_self, h1next]
    · simp only [LfuCache.bucket, h3]
      rw [h1next]
      simp

/-- Closed witness for `lfu_eviction_amended`: both parts instantiated on
the one-resident state `lfuWitC8` (its `minFreq` bucket is the non-empty
chain `[1]`), part two with the fresh key 7. -/
theorem lfu_eviction_amended_witness :
    (lfuWitC8.kickOut).nodeMap = eraseA lfuWitC8.nodeMap ((lfuWitC8.node 1).key) ∧
    (lfuWitC8.kickOut).minFreq = lfuWitC8.minFreq ∧
    (lfuWitC8.put 7 "b").minFreq = 1 ∧
    lookupA (lfuWitC8.put 7 "b").nodeMap 7 = some lfuWitC8.nextId ∧
    lfuWitC8.nextId ∈ (lfuWitC8.put 7 "b").bucket 1 := by
  have h := lfu_eviction_amended lfuWitC8 7 "b" [1]
  obtain ⟨h1, h2⟩ := h
  obtain ⟨ha, hb⟩ := h1 1 [] (by decide)
  obtain ⟨hc, hd, he⟩ := h2 (by decide) (by decide) (by decide) (by decide) (by decide)
  exact ⟨ha, hb, hc, hd, he⟩

/-- C9 counterexample: with K = 3, after a key has been accessed exactly 3
times — two puts and then one get — the key is still absent from the
promotion store (and its history counter stands at 3): `LruKCache::get` only
increments the history counter and performs a lookup; it never admits, so
"K touches of either kind" do not suffice. -/
theorem lruk_third_get_does_not_admit :
    lookupA lruKSeqC9.main.nodeMap 1 = none ∧
    (lruKSeqC9.historyList.get1 1).1 = 3 := by
  refine ⟨by decide, by decide⟩

set_option maxHeartbeats 2000000 in
/-- C9 as amended: accesses of either kind increment the history counter,
but only a `put` performs admission.  With K = 3 and any value `v`, a key
accessed exactly twice (two puts) is absent from the promotion store; a
third access that is a `put` admits it, removes the history entry, and a
subsequent `get` returns `v`; a third access that is a `get` does not admit
(the counterexample above). -/
theorem lruk_admission_amended (v : String) :
    lookupA ((((LruKCache.init 3 3 3).put 1 v).put 1 v).main).nodeMap 1 = none ∧
    lookupA (((((LruKCache.init 3 3 3).put 1 v).put 1 v).put 1 v).main).nodeMap 1
      = some 3 ∧
    lookupA (((((LruKCache.init 3 3 3).put 1 v).put 1 v).put 1 v).historyList).nodeMap 1
      = none ∧
    (((((LruKCache.init 3 3 3).put 1 v).put 1 v).put 1 v).get 1).1 = v := by
  refine ⟨rfl, rfl, rfl, rfl⟩

/-- C10 counterexample: `get(1)` on `arcSeqC10` reports a miss, yet it
mutates observable state: the ghost-list entry for key 1 is consumed and a
capacity transfer runs (the LRU partition's capacity moves from 1 to 2), so
a repeated miss on a ghost-resident key is not a read-only operation. -/
theorem arc_get_miss_mutates_on_ghost_hit :
    ((arcSeqC10.get 1 "").1 = false) ∧
    arcSeqC10.lruPart.capacity = 1 ∧
    (lookupA arcSeqC10.lruPart.ghostCache 1).isSome = true ∧
    (arcSeqC10.get 1 "").2.2.lruPart.capacity = 2 ∧
    lookupA (arcSeqC10.get 1 "").2.2.lruPart.ghostCache 1 = none := by
  refine ⟨by decide, by decide, by decide, by decide, by decide⟩

/-- C10 as amended: a `get` on a key that is absent from every internal
store — for `ArcCache` both main caches and both ghost lists — reports a
miss and returns the state unchanged (so any number of repeated misses
leaves the cache identical); the same frame property holds for `LruCache`
and `LfuCache` on any unmapped key.  (For `ArcCache`, a miss on a key that
is resident only in a ghost list consumes the ghost entry and transfers one
slot of capacity — the counterexample above — and every `LruKCache::get`
updates the history store.) -/
theorem get_miss_frame_amended {K V : Type} [DecidableEq K] [Inhabited K] [Inhabited V]
    (a : ArcCache K V) (l : LruCache K V) (f : LfuCache K V) (k : K) (vin : V)
    (halg : lookupA a.lruPart.ghostCache k = none)
    (hafg : lookupA a.lfuPart.ghostCache k = none)
    (halm : lookupA a.lruPart.mainCache k = none)
    (hafm : lookupA a.lfuPart.mainCache k = none)
    (hl : lookupA l.nodeMap k = none)
    (hf : lookupA f.nodeMap k = none) :
    a.get k vin = (false, vin, a) ∧
    l.get k vin = (false, vin, l) ∧
    f.get k vin = (false, vin, f) := by
  refine ⟨?_, ?_, ?_⟩
  · simp [ArcCache.get, ArcCache.checkGhostCaches, ArcLruPart.checkGhost,
      ArcLfuPart.checkGhost, ArcLruPart.get, ArcLfuPart.get, halg, hafg, halm, hafm]
  · simp [LruCache.get, hl]
  · simp [LfuCache.get, hf]

/-- Closed witness for `get_miss_frame_amended`: instantiated at fresh
caches and key 9, each hypothesis discharged by evaluation. -/
theorem get_miss_frame_amended_witness :
    (ArcCache.init 2 3 : ArcCache Nat String).get 9 "" = (false, "", ArcCache.init 2 3) ∧
    (LruCache.init 2 : LruCache Nat String).get 9 "" = (false, "", LruCache.init 2) ∧
    (LfuCache.init 2 10 : LfuCache Nat String).get 9 "" = (false, "", LfuCache.init 2 10) := by
  exact get_miss_frame_amended (ArcCache.init 2 3) (LruCache.init 2) (LfuCache.init 2 10)
    9 "" (by decide) (by decide) (by decide) (by decide) (by decide) (by decide)

end Cache
